import Mathlib

/-!
# Verification of the yawl namespace-entry engine (src/src/nsenter.cpp)

This development gives a shallow embedding of the namespace-entry core of the
yawl launcher and proves properties of it.  The C sources keep process-global
state (the `namespace_files` table, option-derived fds) and interact with the
kernel through syscalls; we embed that as:

* pure Lean structures mirroring the C data (`NsFile` entries, the invocation
  state `St`),
* a syscall oracle (`Env`, `CapEnv`) giving the outcome of each external call,
* `Except Err` results, where `.error` models process termination with a
  nonzero exit status (either `err(EXIT_FAILURE, ...)` directly, or
  `return -1` from `do_nsenter`, which the only caller in `yawl.cpp`
  turns into `return 1` from `main`),
* an event trace (`List Event`) recording the externally visible actions in
  program order.

Machine integers are modelled as `Int`/`Nat`; file descriptors keep the C
convention that negative values mean "absent".
-/

namespace NsEnter

/-! ## Constants (from sched.h / errno.h / the source's defines) -/

def CLONE_NEWTIME : Nat := 0x00000080
def CLONE_NEWNS : Nat := 0x00020000
def CLONE_NEWCGROUP : Nat := 0x02000000
def CLONE_NEWUTS : Nat := 0x04000000
def CLONE_NEWIPC : Nat := 0x08000000
def CLONE_NEWUSER : Nat := 0x10000000
def CLONE_NEWPID : Nat := 0x20000000
def CLONE_NEWNET : Nat := 0x40000000

/-- `namespaces & ~CLONE_NEWUSER` on a 32-bit int: mask with bit 28 cleared. -/
def NOT_NEWUSER : Nat := 0xEFFFFFFF

def ENOENT : Nat := 2
def EINTR : Nat := 4
def EAGAIN : Nat := 11
def EACCES : Nat := 13
def EINVAL : Nat := 22
def ERANGE : Nat := 34

def INT_MAX : Nat := 2147483647

/-! ## Errors

Every constructor models a path on which the process terminates with a
nonzero exit status before `execvp` replaces the image. -/

inductive Err where
  | noPathNorPid (type_ : String)        -- errx "neither filename nor target pid supplied"
  | openFailed (path : String)           -- err "cannot open %s"
  | noTargetPid                          -- "no target PID specified"
  | noNamespace                          -- "no namespace specified"
  | nsEntryFailed (name : String)        -- err "reassociate to namespace '%s' failed"
  | nsEntryBatchFailed                   -- err "reassociate to namespaces failed"
  | usableStatFailed (path : String)     -- err "stat of %s failed"
  | parentNsFailed                       -- err "failed to open parent namespace"
  | pidfdOpenFailed
  | pidfdGetfdFailed
  | skFstatFailed
  | sknsIoctlFailed
  | cgroupNotV2
  | cgroupPathFailed                     -- err "failed to get cgroup path"
  | cgroupOpenFailed                     -- err "failed to open cgroup.procs"
  | cgroupWriteFailed                    -- err "write cgroup.procs failed"
  | openCwdFailed
  | fchdirRootFailed
  | chrootFailed
  | chdirSlashFailed
  | openWdnsFailed
  | fchdirWdFailed
  | envReadFailed
  | setenvFailed
  | setgroupsFailed
  | setgidFailed
  | setuidFailed
  | capgetFailed
  | capsetFailed
  | prctlAmbientFailed
  | parseFailed (msg : String)           -- err/errx from str2unum_or_err / str2num_or_err
  | execFailed
  | noUserEntry                          -- table lookup miss (unreachable for the real table)
deriving Repr, DecidableEq

/-! ## Events -/

inductive Event where
  | setnsBatch (fd : Int) (mask : Nat)               -- do_setns(pid_fd, ns, NULL, _)
  | setnsOne (fd : Int) (nstype : Nat) (name : String) -- do_setns(n->fd, n->nstype, n->name, _)
  | setgroupsPre                                      -- setgroups(0, NULL) before entry
  | openDot (fd : Int)                                -- wd_fd = open(".", O_RDONLY)
  | fchdirRoot (fd : Int)
  | chrootDot                                         -- chroot(".")
  | chdirSlash                                        -- chdir("/")
  | openWdns (path : String) (fd : Int)
  | fchdirWd (fd : Int)
  | envImport                                         -- clearenv + setenv loop
  | cgroupJoin                                        -- join_into_cgroup write
  | forked                                            -- continue_as_child fork
  | setgroupsPost
  | setgidCall (gid : Nat)
  | setuidCall (uid : Nat)
  | capProp                                           -- cap_permitted_to_ambient
  | execCall
deriving Repr, DecidableEq

/-! ## The namespace registry (struct namespace_file) -/

structure NsFile where
  nstype : Nat
  name : String
  fd : Int
  enabled : Bool
deriving Repr, DecidableEq

/-- The fixed-order table `namespace_files` (without the all-zero sentinel row,
which no iteration ever yields). -/
def namespace_files : List NsFile :=
  [ ⟨CLONE_NEWUSER, "ns/user", -1, false⟩,
    ⟨CLONE_NEWCGROUP, "ns/cgroup", -1, false⟩,
    ⟨CLONE_NEWIPC, "ns/ipc", -1, false⟩,
    ⟨CLONE_NEWUTS, "ns/uts", -1, false⟩,
    ⟨CLONE_NEWNET, "ns/net", -1, false⟩,
    ⟨CLONE_NEWPID, "ns/pid", -1, false⟩,
    ⟨CLONE_NEWNS, "ns/mnt", -1, false⟩,
    ⟨CLONE_NEWTIME, "ns/time", -1, false⟩ ]

/-- The kind filter of `__next_nsfile`:
`if (namespaces && !(n->nstype & namespaces)) continue;`. -/
def maskMatch (nstype mask : Nat) : Bool :=
  mask == 0 || nstype &&& mask != 0

/-- `get_namespaces`: OR of `nstype` over enabled entries. -/
def get_namespaces : List NsFile → Nat
  | [] => 0
  | n :: rest => (if n.enabled then n.nstype else 0) ||| get_namespaces rest

/-- `get_namespaces_without_fd`: OR of `nstype` over enabled entries with no fd. -/
def get_namespaces_without_fd : List NsFile → Nat
  | [] => 0
  | n :: rest =>
      (if n.enabled && n.fd < 0 then n.nstype else 0) ||| get_namespaces_without_fd rest

/-- `disable_nsfile`: close any owned fd, clear the fd and the enabled flag.
Returns the updated entry together with the list of fds that were closed. -/
def disable_nsfile (n : NsFile) : NsFile × List Int :=
  (⟨n.nstype, n.name, -1, false⟩, if n.fd ≥ 0 then [n.fd] else [])

/-- `disable_namespaces`: disable every enabled entry matching the mask. -/
def disable_namespaces (mask : Nat) : List NsFile → List NsFile
  | [] => []
  | n :: rest =>
      (if n.enabled && maskMatch n.nstype mask then (disable_nsfile n).1 else n) ::
        disable_namespaces mask rest

/-- `"/proc/" <pid> "/" <type>`, the path built by `open_target_fd`. -/
def procPath (pid : Nat) (type_ : String) : String :=
  "/proc/" ++ Nat.repr pid ++ "/" ++ type_

/-! ## The shared numeric parser (claim C9)

`str2unum` / `str2unum_or_err` sit on top of libc's `strtoimax`/`strtoumax`;
those are modelled for base 10 (the only base the call sites use): skip
leading spaces, optional sign, then a maximal digit run.  `end == str`
(no conversion) is represented by a consumed-length of zero. -/

def isSpaceChar (c : Char) : Bool :=
  c = ' ' || c = '\t' || c = '\n' || c = '\x0b' || c = '\x0c' || c = '\r'

def digitsToNat (acc : Nat) : List Char → Nat
  | [] => acc
  | c :: rest =>
      if c.isDigit then digitsToNat (acc * 10 + (c.toNat - 48)) rest else acc

def digitRun (l : List Char) : List Char := l.takeWhile (·.isDigit)

/-- Model of `strtoimax(str, &end, 10)`: returns the parsed value and the
number of characters consumed (`0` when no conversion was performed, i.e.
`end == str`). -/
def strtoimax10 (l : List Char) : Int × Nat :=
  let body := l.dropWhile isSpaceChar
  let spaces := l.length - body.length
  match body with
  | '-' :: rest =>
      let ds := digitRun rest
      if ds = [] then (0, 0)
      else (-(Int.ofNat (digitsToNat 0 ds)), spaces + 1 + ds.length)
  | '+' :: rest =>
      let ds := digitRun rest
      if ds = [] then (0, 0)
      else (Int.ofNat (digitsToNat 0 ds), spaces + 1 + ds.length)
  | _ =>
      let ds := digitRun body
      if ds = [] then (0, 0)
      else (Int.ofNat (digitsToNat 0 ds), spaces + ds.length)

/-- Model of `strtoumax(str, &end, 10)` restricted to the inputs that survive
the negative-value rejection in `ul_strtou64` (the value is then the same
magnitude that `strtoimax` produced). -/
def strtoumax10 (l : List Char) : Nat × Nat :=
  let (v, consumed) := strtoimax10 l
  (v.toNat, consumed)

/-- `ul_strtou64(str, &num, 10)`: `.ok` is the parsed number, `.error` the
errno it fails with. -/
def ul_strtou64 (l : List Char) : Except Nat Nat :=
  if l = [] then .error EINVAL
  else
    let (tmp, _) := strtoimax10 l
    if tmp < 0 then .error ERANGE
    else
      let (num, consumed) := strtoumax10 l
      if consumed = 0 || consumed < l.length then .error EINVAL
      else .ok num

def ULONG_MAX : Nat := 2 ^ 64 - 1

/-- `str2unum(str, 10)`: returns 0 on any parse failure, and otherwise the
parsed value — which is also 0 when the input denotes zero. -/
def str2unum (l : List Char) : Nat :=
  match ul_strtou64 l with
  | .error _ => 0
  | .ok num => if num > ULONG_MAX then 0 else num

/-- `str2unum_or_err(str, 10, errmesg)`: a zero result from `str2unum` exits
with a parse error. -/
def str2unum_or_err (l : List Char) (errmesg : String) : Except Err Nat :=
  let num := str2unum l
  if num = 0 then .error (.parseFailed errmesg) else .ok num

/-- The `case 't'` handler: `namespace_target_pid = strtoul_or_err(optarg, ...)`. -/
def opt_case_target (optarg : List Char) : Except Err Nat :=
  str2unum_or_err optarg "failed to parse pid"

/-- The `case 'S'` handler: `"follow"` sets follow mode, anything else goes
through `strtoul_or_err`; `force_uid` is set either way. -/
def opt_case_setuid (optarg : List Char) : Except Err (Bool × Nat) :=
  if optarg = "follow".toList then .ok (true, 0)
  else (str2unum_or_err optarg "failed to parse uid").map (fun u => (false, u))

/-- The `case 'G'` handler, symmetric to `case 'S'`. -/
def opt_case_setgid (optarg : List Char) : Except Err (Bool × Nat) :=
  if optarg = "follow".toList then .ok (true, 0)
  else (str2unum_or_err optarg "failed to parse gid").map (fun g => (false, g))

/-! ## Capability propagation (claim C2)

`cap_permitted_to_ambient` drives `capget`/`capset`/`prctl`; the kernel side
is abstracted by `CapEnv`.  `cap_last_cap` first consults the
`/proc/sys/kernel/cap_last_cap` counter (with the source's sanity check) and
falls back to bisection over `prctl(PR_CAPBSET_READ, ...)`, whose success for
a given capability index is abstracted by `capbset : Nat → Bool`. -/

structure CapEnv where
  capget_ok : Bool
  perm0 : Nat
  perm1 : Nat
  eff0 : Nat
  eff1 : Nat
  capset_ok : Bool
  raise_ok : Nat → Bool        -- prctl(PR_CAP_AMBIENT, PR_CAP_AMBIENT_RAISE, cap, 0, 0) ≥ 0
  capbset : Nat → Bool         -- prctl(PR_CAPBSET_READ, cap, 0, 0, 0) ≥ 0
  caplastcap : Option Nat      -- fscanf on /proc/sys/kernel/cap_last_cap (none: unreadable)

/-- The loop body of `cap_last_by_bsearch`:
`while ((int)cap0 < cap) { if (test_cap(cap)) cap0 = cap; else cap1 = cap; cap = (cap0+cap1)/2U; }`.
Fuel-indexed; 64 iterations are enough to search `[0, INT_MAX]` (proved below). -/
def bsearch_go (test : Nat → Bool) : Nat → Nat → Nat → Nat → Nat
  | 0, _, _, cap => cap
  | fuel + 1, cap0, cap1, cap =>
      if cap0 < cap then
        if test cap then bsearch_go test fuel cap cap1 ((cap + cap1) / 2)
        else bsearch_go test fuel cap0 cap ((cap0 + cap) / 2)
      else cap

/-- `cap_last_by_bsearch`: starts from `cap = cap1 = INT_MAX`, `cap0 = 0`. -/
def cap_last_by_bsearch (test : Nat → Bool) : Nat :=
  bsearch_go test 64 0 INT_MAX INT_MAX

/-- `cap_last_by_procfs`: accept the counter only if
`cap < INT_MAX && !test_cap(cap + 1)`. -/
def cap_last_by_procfs (test : Nat → Bool) (counter : Option Nat) : Option Nat :=
  match counter with
  | some v => if v < INT_MAX && !(test (v + 1)) then some v else none
  | none => none

/-- `cap_last_cap`: procfs counter, or bisection when that fails. -/
def cap_last_cap (test : Nat → Bool) (counter : Option Nat) : Nat :=
  match cap_last_by_procfs test counter with
  | some v => v
  | none => cap_last_by_bsearch test

/-- The raise loop of `cap_permitted_to_ambient`:
`for (cap = 0; cap < 64; cap++) { if (cap > cap_last_cap()) continue;
 if ((effective & (1 << cap)) && prctl(RAISE, cap) < 0) err(...); }`.
Returns the list of capabilities raised into the ambient set. -/
def raise_caps (raise_ok : Nat → Bool) (effective last : Nat) :
    Nat → Nat → Except Err (List Nat)
  | 0, _ => .ok []
  | fuel + 1, cap =>
      if cap > last then raise_caps raise_ok effective last fuel (cap + 1)
      else if effective.testBit cap then
        if raise_ok cap then
          (raise_caps raise_ok effective last fuel (cap + 1)).map (fun l => cap :: l)
        else .error .prctlAmbientFailed
      else raise_caps raise_ok effective last fuel (cap + 1)

/-- Result of a successful `cap_permitted_to_ambient`: the inheritable words
written back by `capset` and the capabilities raised into the ambient set. -/
structure CapOut where
  inh0 : Nat
  inh1 : Nat
  raised : List Nat
deriving Repr, DecidableEq

/-- `cap_permitted_to_ambient`. -/
def cap_permitted_to_ambient (e : CapEnv) : Except Err CapOut :=
  if !e.capget_ok then .error .capgetFailed
  else
    -- payload[i].inheritable = payload[i].permitted, then capset
    if !e.capset_ok then .error .capsetFailed
    else
      let effective := (e.eff1 <<< 32) ||| e.eff0
      let last := cap_last_cap e.capbset e.caplastcap
      (raise_caps e.raise_ok effective last 64 0).map
        (fun l => ⟨e.perm0, e.perm1, l⟩)

/-! ## The usable-namespace pre-check (claims C3, C4)

`stat` is abstracted as a map from paths to either an errno or a
`(st_dev, st_ino)` pair.  `get_ns_ino` drops the device and keeps only the
inode, exactly as the source does. -/

structure FsEnv where
  pid_self : Nat                              -- getpid()
  statFs : String → Except Nat (Nat × Nat)    -- errno ⊕ (st_dev, st_ino)

/-- `get_ns_ino`: stat the path; on failure report `-errno` (here: the errno),
on success yield only `st.st_ino`. -/
def get_ns_ino (fs : FsEnv) (path : String) : Except Nat Nat :=
  match fs.statFs path with
  | .error e => .error e
  | .ok st => .ok st.2

/-- `is_usable_namespace(target, nsfile)`.  `my_ino` is initialised to `0` and
left untouched when the first stat fails; only `-ENOENT` short-circuits. -/
def is_usable_namespace (fs : FsEnv) (target : Nat) (nsfile : NsFile) :
    Except Err Bool :=
  let path := procPath fs.pid_self nsfile.name
  let rc : Option Nat := match get_ns_ino fs path with
    | .error e => some e
    | .ok _ => none
  let my_ino : Nat := match get_ns_ino fs path with
    | .error _ => 0
    | .ok i => i
  if rc = some ENOENT then .ok false
  else if nsfile.nstype &&& CLONE_NEWUSER != 0 then
    let tpath := procPath target nsfile.name
    match get_ns_ino fs tpath with
    | .error _ => .error (.usableStatFailed tpath)
    | .ok target_ino => if my_ino == target_ino then .ok false else .ok true
  else .ok true

/-- The `--all` scan of `do_nsenter`:
already-enabled entries are skipped, usable ones are enabled via
`enable_nsfile(n, NULL)` (no fd is opened), unusable ones are silently left
alone. -/
def scan_all_loop (fs : FsEnv) (target : Nat) : List NsFile → Except Err (List NsFile)
  | [] => .ok []
  | n :: rest =>
      if n.enabled then (scan_all_loop fs target rest).map (fun r => n :: r)
      else
        match is_usable_namespace fs target n with
        | .error e => .error e
        | .ok u =>
            (scan_all_loop fs target rest).map
              (fun r => (if u then { n with enabled := true } else n) :: r)

/-- The identity the SPEC compares namespaces by ("source-device+inode").
This definition follows the spec's words, for refinement comparison with the
inode-only comparison the code performs (claim C3). -/
def spec_ns_identity (fs : FsEnv) (path : String) : Except Nat (Nat × Nat) :=
  fs.statFs path

/-! ## write_all and the cgroup joiner (claim C8) -/

/-- Outcome of one `write(2)` call: `ok n` is a return value of `n ≥ 0` with
`errno` left at `0` (the loop zeroes `errno` before each call), `err e` is a
return value of `-1` with `errno = e`. -/
inductive WriteRes where
  | ok (n : Nat)
  | err (e : Nat)
deriving Repr, DecidableEq

/-- `write_all(fd, buf, count)`:
```
while (count) { errno = 0; tmp = write(fd, buf, count);
  if (tmp > 0) count -= tmp;
  else if (errno != EINTR && errno != EAGAIN) return -1;
  if (errno == EAGAIN) nanosleep(...); }
return 0;
```
The successive `write` outcomes are drawn from `results`; `none` means the
oracle ran out while the loop still wanted to write (no verdict). -/
def write_all : List WriteRes → Nat → Option Int
  | _, 0 => some 0
  | [], _ + 1 => none
  | .ok n :: rs, count + 1 =>
      if n > 0 then write_all rs (count + 1 - n)
      else some (-1)                      -- errno == 0: neither EINTR nor EAGAIN
  | .err e :: rs, count + 1 =>
      if e ≠ EINTR && e ≠ EAGAIN then some (-1)
      else write_all rs (count + 1)

/-- `strtok(buf, "\n")` (first call): skip leading delimiters, return the
first maximal delimiter-free run, or NULL when only delimiters remain. -/
def strtok_first (delim : Char) (l : List Char) : Option (List Char) :=
  let body := l.dropWhile (· = delim)
  if body = [] then none else some (body.takeWhile (· ≠ delim))

/-- `strrchr(p, c)` viewed as "the text after the last occurrence of `c`",
or NULL when `c` does not occur. -/
def strrchr_suffix (c : Char) (l : List Char) : Option (List Char) :=
  if l.contains c then some (l.reverse.takeWhile (· ≠ c)).reverse else none

/-- `open_cgroup_procs` minus the actual descriptors: read
`/proc/<target>/cgroup`, take the text after the last `:` of the first line,
open `/sys/fs/cgroup/<path>/cgroup.procs` for append.  `content` is what
`read_all_alloc` yielded (`none`: the read failed), `openAppend` the open
oracle.  Returns the opened fd and the path it was opened on. -/
def open_cgroup_procs (target : Nat) (openRO : String → Int)
    (content : Option (List Char)) (openAppend : String → Int) :
    Except Err (Int × String) :=
  if target = 0 then .error (.noPathNorPid "cgroup")
  else
    let cpath := procPath target "cgroup"
    if openRO cpath < 0 then .error (.openFailed cpath)
    else
      match content with
      | none => .error .cgroupPathFailed
      | some buf =>
        if buf.length < 1 then .error .cgroupPathFailed
        else
          match strtok_first '\n' buf with
          | none => .error .cgroupPathFailed
          | some line =>
            match strrchr_suffix ':' line with
            | none => .error .cgroupPathFailed
            | some rest =>
              let fdpath := "/sys/fs/cgroup/" ++ String.mk rest ++ "/cgroup.procs"
              let fd := openAppend fdpath
              if fd < 0 then .error .cgroupOpenFailed else .ok (fd, fdpath)

/-- `join_into_cgroup`: format `getpid()` in base 10 (snprintf `%zu`) and
`write_all` it to the already-open `cgroup.procs` fd; a nonzero `write_all`
verdict is fatal (`if (write_all(...)) err(...)`).  Returns the buffer that
was written. -/
def join_into_cgroup (pid : Nat) (results : List WriteRes) :
    Except Err (List Char) :=
  let buf := (Nat.repr pid).toList
  match write_all results buf.length with
  | some r => if r = 0 then .ok buf else .error .cgroupWriteFailed
  | none => .error .cgroupWriteFailed

/-! ## Parent user namespace and socket-derived network namespace

These two resolvers mutate the first registry entry of their kind.  Oracles:
`ioctl`s and `pidfd` calls return an `Int` fd (negative: failure). -/

/-- Replace the first entry whose kind matches `mask`. -/
def replace_first (mask : Nat) (f : NsFile → NsFile) : List NsFile → List NsFile
  | [] => []
  | n :: rest =>
      if n.nstype &&& mask != 0 then f n :: rest
      else n :: replace_first mask f rest

structure ParentNsEnv where
  ioctl_pidfd_user : Int → Int     -- ioctl(pid_fd, PIDFD_GET_USER_NAMESPACE, 0)
  ioctl_get_userns : Int → Int     -- ioctl(fd, NS_GET_USERNS)
  openRO : String → Int            -- open(path, O_RDONLY) for the /proc fallback

/-- The fd-selection cascade of `open_parent_user_ns_fd`: the user entry's
own fd, the pidfd ioctl, any enabled entry's fd, or a direct `/proc` open.
Returns the reference fd and whether it is locally owned (to be closed). -/
def pick_user_ref_fd (e : ParentNsEnv) (pid_fd : Int) (target : Nat)
    (reg : List NsFile) (user : NsFile) : Except Err (Int × Bool) :=
  -- try user namespace if FD defined
  let fd0 : Int := if user.enabled then user.fd else -1
  -- try pidfd to get FD
  let (fd1, islocal1) : Int × Bool :=
    if fd0 < 0 && pid_fd ≥ 0 then
      let f := e.ioctl_pidfd_user pid_fd
      (f, f ≥ 0)
    else (fd0, false)
  -- try any enabled namespace
  let fd2 : Int :=
    if fd1 < 0 then
      match reg.find? (·.enabled) with
      | some n => n.fd
      | none => fd1
    else fd1
  -- try directly open the NS
  if fd2 < 0 then
    if target = 0 then .error (.noPathNorPid "ns/user")
    else
      let f := e.openRO (procPath target "ns/user")
      if f < 0 then .error (.openFailed (procPath target "ns/user"))
      else .ok (f, true)
  else .ok (fd2, islocal1)

/-- `open_parent_user_ns_fd(pid_fd)`.  Returns the updated registry and the
list of fds the function closed.  Note the final close of the previously
owned user fd is guarded by `user->fd > 0` in the source — descriptor 0 is
not closed. -/
def open_parent_user_ns_fd (e : ParentNsEnv) (pid_fd : Int) (target : Nat)
    (reg : List NsFile) : Except Err (List NsFile × List Int) :=
  match reg.find? (fun n => n.nstype &&& CLONE_NEWUSER != 0) with
  | none => .error .noUserEntry
  | some user =>
    match pick_user_ref_fd e pid_fd target reg user with
    | .error er => .error er
    | .ok (fd, islocal) =>
      let parent_fd := e.ioctl_get_userns fd
      if parent_fd < 0 then .error .parentNsFailed
      else
        let closed := (if islocal then [fd] else []) ++
          (if user.fd > 0 then [user.fd] else [])
        .ok (replace_first CLONE_NEWUSER
              (fun u => { u with fd := parent_fd, enabled := true }) reg, closed)

structure SkNsEnv where
  pidfd_open : Nat → Int           -- pidfd_open(namespace_target_pid, 0)
  pidfd_getfd : Int → Int → Int    -- pidfd_getfd(pidfd, sock_fd, 0)
  fstat_ok : Int → Bool            -- fstat(sk, &sb) == 0
  ioctl_skns : Int → Int           -- ioctl(sk, SIOCGSKNS)

/-- `open_target_sk_netns(pidfd, sock_fd)`: updated registry plus closed fds. -/
def open_target_sk_netns (e : SkNsEnv) (pid_fd sock_fd : Int) (target : Nat)
    (reg : List NsFile) : Except Err (List NsFile × List Int) :=
  match reg.find? (fun n => n.nstype &&& CLONE_NEWNET != 0) with
  | none => .error .noUserEntry
  | some nsfile =>
    let pidfd : Int := if pid_fd < 0 then e.pidfd_open target else pid_fd
    if pid_fd < 0 ∧ pidfd < 0 then .error .pidfdOpenFailed
    else
      let sk := e.pidfd_getfd pidfd sock_fd
      if sk < 0 then .error .pidfdGetfdFailed
      else if !e.fstat_ok sk then .error .skFstatFailed
      else
        let nsfd := e.ioctl_skns sk
        if nsfd < 0 then .error .sknsIoctlFailed
        else
          let closed := (if nsfile.fd ≥ 0 then [nsfile.fd] else []) ++ [sk] ++
            (if pid_fd < 0 then [pidfd] else [])
          .ok (replace_first CLONE_NEWNET
                (fun n => { n with fd := nsfd, enabled := true }) reg, closed)

/-! ## The two-phase entry sequencer (claims C1, C10) -/

/-- The kernel side of `setns(fd, nstype)`. -/
structure SetnsEnv where
  setns_ok : Int → Nat → Bool

/-- The per-entry loop of `enter_namespaces`: every enabled entry matching the
mask and holding an fd gets an individual `do_setns(n->fd, n->nstype, n->name,
ignore_errors)`; success runs `disable_nsfile`, failure either leaves the
entry untouched (`ignore_errors`) or is fatal naming the namespace. -/
def enter_loop (e : SetnsEnv) (mask : Nat) (ignore : Bool) :
    List NsFile → Except Err (List NsFile × List Event)
  | [] => .ok ([], [])
  | n :: rest =>
      if n.enabled && maskMatch n.nstype mask then
        if n.fd < 0 then
          (enter_loop e mask ignore rest).map (fun (rs, tr) => (n :: rs, tr))
        else
          let ev := Event.setnsOne n.fd n.nstype n.name
          if e.setns_ok n.fd n.nstype then
            (enter_loop e mask ignore rest).map
              (fun (rs, tr) => ((disable_nsfile n).1 :: rs, ev :: tr))
          else if ignore then
            (enter_loop e mask ignore rest).map
              (fun (rs, tr) => (n :: rs, ev :: tr))
          else .error (.nsEntryFailed n.name)
      else (enter_loop e mask ignore rest).map (fun (rs, tr) => (n :: rs, tr))

/-- The OR of kinds collected for the fd-batched `setns` attempt: enabled
entries matching the mask that have no fd yet. -/
def batch_mask (mask : Nat) : List NsFile → Nat
  | [] => 0
  | n :: rest =>
      (if n.enabled && maskMatch n.nstype mask && n.fd < 0 then n.nstype else 0) |||
        batch_mask mask rest

/-- `enter_namespaces(pid_fd, namespaces, ignore_errors)`.  The C guard on the
batched branch is `if (pid_fd)`, i.e. `pid_fd ≠ 0` — which is also taken for
the sentinel value `-1`. -/
def enter_namespaces (e : SetnsEnv) (pid_fd : Int) (reg : List NsFile)
    (mask : Nat) (ignore : Bool) : Except Err (List NsFile × List Event) :=
  if pid_fd ≠ 0 then
    if batch_mask mask reg ≠ 0 then
      if e.setns_ok pid_fd (batch_mask mask reg) then
        (enter_loop e mask ignore (disable_namespaces (batch_mask mask reg) reg)).map
          (fun p => (p.1, Event.setnsBatch pid_fd (batch_mask mask reg) :: p.2))
      else if ignore then
        (enter_loop e mask ignore reg).map
          (fun p => (p.1, Event.setnsBatch pid_fd (batch_mask mask reg) :: p.2))
      else .error .nsEntryBatchFailed
    else enter_loop e mask ignore reg
  else enter_loop e mask ignore reg

/-- Lines 1340–1344 of `do_nsenter`: phase 1 with the user namespace masked
out and errors ignored, then — if anything is still enabled — phase 2 over
the remaining set with errors fatal.  Also returns the phase-2 mask
(the value the `namespaces` variable holds afterwards, which later guards
capability propagation). -/
def two_phase (e : SetnsEnv) (pid_fd : Int) (reg : List NsFile)
    (namespaces : Nat) : Except Err (List NsFile × List Event × Nat) :=
  match enter_namespaces e pid_fd reg (namespaces &&& NOT_NEWUSER) true with
  | .error er => .error er
  | .ok (reg1, tr1) =>
    let ns2 := get_namespaces reg1
    if ns2 ≠ 0 then
      match enter_namespaces e pid_fd reg1 ns2 false with
      | .error er => .error er
      | .ok (reg2, tr2) => .ok (reg2, tr1 ++ tr2, ns2)
    else .ok (reg1, tr1, ns2)

/-! ## The invocation pipeline (`do_nsenter`, lines 1270–1439)

`St` mirrors the option-derived locals and file-scope globals at the point
where option parsing has finished; `Env` is the syscall oracle.  `pid_fd` is
declared as `int pid_fd = -1` and never assigned in the source, so it appears
below only as the literal `-1`. -/

structure Env where
  fs : FsEnv
  openRO : String → Int
  parentNs : ParentNsEnv
  skns : SkNsEnv
  setns : SetnsEnv
  is_cgroup2 : Bool
  cgroupContent : Option (List Char)
  openAppend : String → Int
  writeResults : List WriteRes
  openDotFd : Int                       -- open(".", O_RDONLY)
  fchdir_ok : Int → Bool
  chroot_ok : Bool                      -- chroot(".")
  chdir_slash_ok : Bool                 -- chdir("/")
  openWdnsFd : String → Int
  envRead : Option (List (String × String))  -- env_list_from_fd (none: NULL with errno set)
  setenv_ok : Bool
  st_uid : Nat                          -- fstat(uid_gid_fd).st_uid
  st_gid : Nat
  setgroups_pre_ok : Bool
  setgroups_post_ok : Bool
  setgid_ok : Nat → Bool
  setuid_ok : Nat → Bool
  cap : CapEnv
  exec_ok : Bool

structure St where
  reg : List NsFile
  target : Nat            -- namespace_target_pid
  sock_fd : Int
  do_all : Bool
  do_user_parent : Bool
  do_rd : Bool
  do_wd : Bool
  do_env : Bool
  do_uid : Bool
  do_gid : Bool
  do_join_cgroup : Bool
  wdns : Option String
  preserve_cred : Bool
  keepcaps : Bool
  force_uid : Bool
  force_gid : Bool
  uid : Nat
  gid : Nat
  do_fork : Int           -- -1 unknown, 0 --no-fork, 1 fork
  root_fd : Int
  wd_fd : Int
  env_fd : Int
  uid_gid_fd : Int
  cgroup_procs_fd : Int
  setgroups_nerrs : Nat
  namespaces : Nat
  has_command : Bool      -- optind < argc
deriving Repr, DecidableEq

/-- Lines 1270–1277: the `--all` scan. -/
def stage_scan_all (e : Env) (s : St) : Except Err St :=
  if s.do_all then
    (scan_all_loop e.fs s.target s.reg).map (fun r => { s with reg := r })
  else .ok s

/-- `open_namespaces(namespaces)`: open `/proc/<pid>/<name>` for every
enabled entry matching the mask that has no fd yet (`open_target_fd` with a
NULL path, fatal on failure). -/
def open_namespaces_loop (openRO : String → Int) (target mask : Nat) :
    List NsFile → Except Err (List NsFile)
  | [] => .ok []
  | n :: rest =>
      if n.enabled && maskMatch n.nstype mask && n.fd < 0 then
        if target = 0 then .error (.noPathNorPid n.name)
        else
          let fd := openRO (procPath target n.name)
          if fd < 0 then .error (.openFailed (procPath target n.name))
          else
            (open_namespaces_loop openRO target mask rest).map
              (fun r => { n with fd := fd } :: r)
      else (open_namespaces_loop openRO target mask rest).map (fun r => n :: r)

/-- Lines 1282–1288: require a target pid when namespaces/sock/user-parent
still need resolving, then (as `pid_fd < 0` always holds) open the remaining
namespace fds through `/proc`. -/
def stage_open_remaining (e : Env) (s : St) : Except Err St :=
  if get_namespaces_without_fd s.reg ≠ 0 ∨ s.sock_fd ≥ 0 ∨ s.do_user_parent = true then
    if s.target = 0 then .error .noTargetPid
    else if get_namespaces_without_fd s.reg ≠ 0 then
      (open_namespaces_loop e.openRO s.target (get_namespaces_without_fd s.reg) s.reg).map
        (fun r => { s with reg := r })
    else .ok s
  else .ok s

/-- `open_target_fd(&fd, type, NULL)` for the directory/environ/stat fds. -/
def open_target_fd (openRO : String → Int) (target : Nat) (type_ : String) :
    Except Err Int :=
  if target = 0 then .error (.noPathNorPid type_)
  else
    let fd := openRO (procPath target type_)
    if fd < 0 then .error (.openFailed (procPath target type_)) else .ok fd

/-- Lines 1291–1303: open root/cwd/environ/uid-gid fds and the cgroup.procs
fd (cgroup-v2 check first).  Each open fails fatally, so the stage either
errors or produces the state with all requested descriptors filled in. -/
def stage_open_dirs (e : Env) (s : St) : Except Err St :=
  (if s.do_rd then open_target_fd e.openRO s.target "root" else .ok s.root_fd) >>=
    fun root_fd =>
  (if s.do_wd then open_target_fd e.openRO s.target "cwd" else .ok s.wd_fd) >>=
    fun wd_fd =>
  (if s.do_env then open_target_fd e.openRO s.target "environ" else .ok s.env_fd) >>=
    fun env_fd =>
  (if s.do_uid || s.do_gid then open_target_fd e.openRO s.target ""
    else .ok s.uid_gid_fd) >>= fun uid_gid_fd =>
  (if s.do_join_cgroup then
      if !e.is_cgroup2 then .error .cgroupNotV2
      else
        (open_cgroup_procs s.target e.openRO e.cgroupContent e.openAppend).map
          (fun p => p.1)
    else .ok s.cgroup_procs_fd) >>= fun cgroup_procs_fd =>
  .ok { s with root_fd := root_fd, wd_fd := wd_fd, env_fd := env_fd,
               uid_gid_fd := uid_gid_fd, cgroup_procs_fd := cgroup_procs_fd }

/-- Lines 1308–1309: parent user namespace derivation (with `pid_fd = -1`). -/
def stage_user_parent (e : Env) (s : St) : Except Err St :=
  if s.do_user_parent then
    (open_parent_user_ns_fd e.parentNs (-1) s.target s.reg).map
      (fun p => { s with reg := p.1 })
  else .ok s

/-- Lines 1311–1312: socket-derived network namespace (with `pid_fd = -1`). -/
def stage_sock (e : Env) (s : St) : Except Err St :=
  if s.sock_fd ≥ 0 then
    (open_target_sk_netns e.skns (-1) s.sock_fd s.target s.reg).map
      (fun p => { s with reg := p.1 })
  else .ok s

/-- Lines 1315–1320: the final namespace mask and the fork default. -/
def stage_final_mask (s : St) : Except Err St :=
  if get_namespaces s.reg = 0 then .error .noNamespace
  else if get_namespaces s.reg &&& CLONE_NEWPID != 0 && s.do_fork == -1 then
    .ok { s with namespaces := get_namespaces s.reg, do_fork := 1 }
  else .ok { s with namespaces := get_namespaces s.reg }

/-- Lines 1324–1331: when entering a user namespace without
`--preserve-credentials`, force uid/gid and attempt a first `setgroups`
(its failure only counted, not fatal). -/
def stage_cred_pre (e : Env) (s : St) : St × List Event :=
  if s.namespaces &&& CLONE_NEWUSER != 0 && !s.preserve_cred then
    ({ s with force_uid := true, force_gid := true,
              setgroups_nerrs :=
                if e.setgroups_pre_ok then s.setgroups_nerrs
                else s.setgroups_nerrs + 1 },
     [Event.setgroupsPre])
  else (s, [])

/-- Lines 1340–1347: the two entry phases (and closing `pid_fd`, a no-op). -/
def stage_entry (e : Env) (s : St) : Except Err (St × List Event) :=
  (two_phase e.setns (-1) s.reg s.namespaces).map
    (fun r => ({ s with reg := r.1, namespaces := r.2.2 }, r.2.1))

/-- Lines 1349–1354: remember the current directory when changing root
without an explicit working directory. -/
def dir_step_cwd (e : Env) (s : St) : Except Err (St × List Event) :=
  if s.root_fd ≥ 0 ∧ s.wd_fd < 0 ∧ s.wdns = none then
    if e.openDotFd < 0 then .error .openCwdFailed
    else .ok ({ s with wd_fd := e.openDotFd }, [Event.openDot e.openDotFd])
  else .ok (s, [])

/-- Lines 1357–1368: the root change: `fchdir(root_fd)`, `chroot(".")`,
`chdir("/")`, each failure fatal, then the root fd is closed. -/
def dir_step_root (e : Env) (s : St) : Except Err (St × List Event) :=
  if s.root_fd ≥ 0 then
    if !e.fchdir_ok s.root_fd then .error .fchdirRootFailed
    else if !e.chroot_ok then .error .chrootFailed
    else if !e.chdir_slash_ok then .error .chdirSlashFailed
    else
      .ok ({ s with root_fd := -1 },
        [Event.fchdirRoot s.root_fd, Event.chrootDot, Event.chdirSlash])
  else .ok (s, [])

/-- Lines 1371–1375: open an in-namespace working directory path. -/
def dir_step_wdns (e : Env) (s : St) : Except Err (St × List Event) :=
  match s.wdns with
  | some p =>
      if e.openWdnsFd p < 0 then .error .openWdnsFailed
      else .ok ({ s with wd_fd := e.openWdnsFd p }, [Event.openWdns p (e.openWdnsFd p)])
  | none => .ok (s, [])

/-- Lines 1378–1384: change to the working directory and close its fd. -/
def dir_step_wd (e : Env) (s : St) : Except Err (St × List Event) :=
  if s.wd_fd ≥ 0 then
    if !e.fchdir_ok s.wd_fd then .error .fchdirWdFailed
    else .ok ({ s with wd_fd := -1 }, [Event.fchdirWd s.wd_fd])
  else .ok (s, [])

/-- Lines 1349–1384: remember the current directory when changing root
without an explicit working directory, change root (fchdir; chroot ".";
chdir "/"), resolve an in-namespace working directory, change directory. -/
def stage_dir (e : Env) (s : St) : Except Err (St × List Event) := do
  let (s1, tr0) ← dir_step_cwd e s
  let (s2, tr1) ← dir_step_root e s1
  let (s3, tr2) ← dir_step_wdns e s2
  let (s4, tr3) ← dir_step_wd e s3
  .ok (s4, tr0 ++ tr1 ++ tr2 ++ tr3)

/-- Lines 1387–1398: environment import from the target's `environ` fd. -/
def stage_env (e : Env) (s : St) : Except Err (St × List Event) :=
  if s.env_fd ≥ 0 then
    match e.envRead with
    | none => .error .envReadFailed
    | some l =>
        if l ≠ [] && !e.setenv_ok then .error .setenvFailed
        else .ok ({ s with env_fd := -1 }, [Event.envImport])
  else .ok (s, [])

/-- Lines 1401–1402: join the target cgroup. -/
def stage_cgroup (e : Env) (s : St) : Except Err (St × List Event) :=
  if s.cgroup_procs_fd ≥ 0 then
    match join_into_cgroup e.fs.pid_self e.writeResults with
    | .ok _ => .ok (s, [Event.cgroupJoin])
    | .error er => .error er
  else .ok (s, [])

/-- Lines 1404–1417: read uid/gid from the reference descriptor.  The
`fstat(...) > 0` error branch in the source can never be taken (`fstat`
returns 0 or -1), so this stage cannot fail. -/
def stage_uid_gid (e : Env) (s : St) : St :=
  if s.uid_gid_fd ≥ 0 then
    { s with uid_gid_fd := -1,
             uid := if s.do_uid then e.st_uid else s.uid,
             gid := if s.do_gid then e.st_gid else s.gid }
  else s

/-- Lines 1419–1420: the optional child-relay fork (the trace continues as
the child; the parent only relays job control and exits). -/
def stage_fork (s : St) : St × List Event :=
  if s.do_fork = 1 then (s, [Event.forked]) else (s, [])

/-- Lines 1422–1429: drop supplementary groups, change gid, change uid. -/
def stage_cred (e : Env) (s : St) : Except Err (St × List Event) :=
  if s.force_uid || s.force_gid then
    if s.force_gid ∧ ¬e.setgroups_post_ok ∧ s.setgroups_nerrs ≠ 0 then
      .error .setgroupsFailed
    else if s.force_gid ∧ ¬e.setgid_ok s.gid then .error .setgidFailed
    else if s.force_uid ∧ ¬e.setuid_ok s.uid then .error .setuidFailed
    else
      .ok (s, (if s.force_gid then [Event.setgroupsPost] else []) ++
              (if s.force_gid then [Event.setgidCall s.gid] else []) ++
              (if s.force_uid then [Event.setuidCall s.uid] else []))
  else .ok (s, [])

/-- Lines 1431–1432: ambient capability propagation, guarded by `keepcaps`
and the user bit of the (post-phase-1) `namespaces` variable. -/
def stage_caps (e : Env) (s : St) : Except Err (St × List Event) :=
  if s.keepcaps && s.namespaces &&& CLONE_NEWUSER != 0 then
    match cap_permitted_to_ambient e.cap with
    | .ok _ => .ok (s, [Event.capProp])
    | .error er => .error er
  else .ok (s, [])

/-- Lines 1434–1438: `execvp` or fall through to failure. -/
def stage_exec (e : Env) (s : St) : Except Err (List Event) :=
  if s.has_command then
    if e.exec_ok then .ok [Event.execCall] else .error .execFailed
  else .error .execFailed

/-- Lines 1270–1312: the resolution half of the pipeline — everything that
populates registry fds and auxiliary descriptors, before any `setns`. -/
def resolve_stages (e : Env) (s : St) : Except Err St := do
  let s ← stage_scan_all e s
  let s ← stage_open_remaining e s
  let s ← stage_open_dirs e s
  let s ← stage_user_parent e s
  stage_sock e s

/-- `do_nsenter` after option parsing: the full pipeline.  A `.ok` result is
a run that ended in a successful `execvp`; its value is the event trace in
program order. -/
def do_nsenter_core (e : Env) (s : St) : Except Err (List Event) := do
  let s ← resolve_stages e s
  let s ← stage_final_mask s
  let (s, tr0) := stage_cred_pre e s
  let (s, tr1) ← stage_entry e s
  let (s, tr2) ← stage_dir e s
  let (s, tr3) ← stage_env e s
  let (s, tr4) ← stage_cgroup e s
  let s := stage_uid_gid e s
  let (s, tr5) := stage_fork s
  let (s, tr6) ← stage_cred e s
  let (s, tr7) ← stage_caps e s
  let tr8 ← stage_exec e s
  return tr0 ++ tr1 ++ tr2 ++ tr3 ++ tr4 ++ tr5 ++ tr6 ++ tr7 ++ tr8

instance {ε α : Type} [DecidableEq ε] [DecidableEq α] : DecidableEq (Except ε α) :=
  fun a b =>
    match a, b with
    | .error e1, .error e2 =>
        decidable_of_iff (e1 = e2) ⟨fun h => h ▸ rfl, fun h => by cases h; rfl⟩
    | .error _, .ok _ => isFalse (fun h => by cases h)
    | .ok _, .error _ => isFalse (fun h => by cases h)
    | .ok a1, .ok a2 =>
        decidable_of_iff (a1 = a2) ⟨fun h => h ▸ rfl, fun h => by cases h; rfl⟩

/-- A registry whose user entry owns descriptor 0 (possible whenever the
launcher starts with stdin closed and `-U <file>` opened the namespace file
as fd 0). -/
def regC6_fd0 : List NsFile :=
  [ ⟨CLONE_NEWUSER, "ns/user", 0, true⟩,
    ⟨CLONE_NEWCGROUP, "ns/cgroup", -1, false⟩,
    ⟨CLONE_NEWIPC, "ns/ipc", -1, false⟩,
    ⟨CLONE_NEWUTS, "ns/uts", -1, false⟩,
    ⟨CLONE_NEWNET, "ns/net", -1, false⟩,
    ⟨CLONE_NEWPID, "ns/pid", -1, false⟩,
    ⟨CLONE_NEWNS, "ns/mnt", -1, false⟩,
    ⟨CLONE_NEWTIME, "ns/time", -1, false⟩ ]

/-- The same registry but with the user fd being 3. -/
def regC6_fd3 : List NsFile :=
  [ ⟨CLONE_NEWUSER, "ns/user", 3, true⟩,
    ⟨CLONE_NEWCGROUP, "ns/cgroup", -1, false⟩,
    ⟨CLONE_NEWIPC, "ns/ipc", -1, false⟩,
    ⟨CLONE_NEWUTS, "ns/uts", -1, false⟩,
    ⟨CLONE_NEWNET, "ns/net", -1, false⟩,
    ⟨CLONE_NEWPID, "ns/pid", -1, false⟩,
    ⟨CLONE_NEWNS, "ns/mnt", -1, false⟩,
    ⟨CLONE_NEWTIME, "ns/time", -1, false⟩ ]

def envC6 : ParentNsEnv :=
  ⟨fun _ => -1, fun _ => 7, fun _ => -1⟩

/-- A filesystem in which the caller's user namespace and the target's user
namespace have the same inode 5 but different source devices 1 and 2 —
distinct namespaces under the spec's device+inode identity. -/
def fsC3 : FsEnv :=
  ⟨100, fun p =>
    if p = "/proc/100/ns/user" then .ok (1, 5)
    else if p = "/proc/200/ns/user" then .ok (2, 5)
    else .error ENOENT⟩

def userEntryC3 : NsFile := ⟨CLONE_NEWUSER, "ns/user", -1, false⟩

/-- A filesystem in which statting the caller's own `ns/net` path fails with
`EACCES` (not `ENOENT`). -/
def fsC4 : FsEnv :=
  ⟨100, fun p =>
    if p = "/proc/100/ns/net" then .error EACCES else .error ENOENT⟩

def netEntryC4 : NsFile := ⟨CLONE_NEWNET, "ns/net", -1, false⟩

/-- The first line of a buffer (up to the first newline). -/
def first_line (l : List Char) : List Char := l.takeWhile (· ≠ '\n')

/-- The text after the last colon of a line. -/
def after_last_colon (l : List Char) : List Char :=
  (l.reverse.takeWhile (· ≠ ':')).reverse

/-- Total bytes the write oracle would accept. -/
def writeConsumed : List WriteRes → Nat
  | [] => 0
  | .ok n :: rs => n + writeConsumed rs
  | .err _ :: rs => writeConsumed rs

def capEnvTriv : CapEnv :=
  ⟨true, 0, 0, 0, 0, true, fun _ => true, fun c => decide (c ≤ 40), some 40⟩

def fsTriv : FsEnv := ⟨100, fun _ => .error ENOENT⟩

/-- A registry where only the user namespace is enabled, holding fd 5. -/
def regC2 : List NsFile :=
  [ ⟨CLONE_NEWUSER, "ns/user", 5, true⟩,
    ⟨CLONE_NEWCGROUP, "ns/cgroup", -1, false⟩,
    ⟨CLONE_NEWIPC, "ns/ipc", -1, false⟩,
    ⟨CLONE_NEWUTS, "ns/uts", -1, false⟩,
    ⟨CLONE_NEWNET, "ns/net", -1, false⟩,
    ⟨CLONE_NEWPID, "ns/pid", -1, false⟩,
    ⟨CLONE_NEWNS, "ns/mnt", -1, false⟩,
    ⟨CLONE_NEWTIME, "ns/time", -1, false⟩ ]

def envC2 : Env :=
  { fs := fsTriv
    openRO := fun _ => -1
    parentNs := ⟨fun _ => -1, fun _ => -1, fun _ => -1⟩
    skns := ⟨fun _ => -1, fun _ _ => -1, fun _ => false, fun _ => -1⟩
    setns := ⟨fun _ _ => true⟩
    is_cgroup2 := false
    cgroupContent := none
    openAppend := fun _ => -1
    writeResults := []
    openDotFd := -1
    fchdir_ok := fun _ => false
    chroot_ok := false
    chdir_slash_ok := false
    openWdnsFd := fun _ => -1
    envRead := none
    setenv_ok := false
    st_uid := 0
    st_gid := 0
    setgroups_pre_ok := true
    setgroups_post_ok := true
    setgid_ok := fun _ => true
    setuid_ok := fun _ => true
    cap := capEnvTriv
    exec_ok := true }

def stC2 : St :=
  { reg := regC2, target := 0, sock_fd := -1, do_all := false,
    do_user_parent := false, do_rd := false, do_wd := false, do_env := false,
    do_uid := false, do_gid := false, do_join_cgroup := false, wdns := none,
    preserve_cred := true, keepcaps := true, force_uid := false,
    force_gid := false, uid := 0, gid := 0, do_fork := 0, root_fd := -1,
    wd_fd := -1, env_fd := -1, uid_gid_fd := -1, cgroup_procs_fd := -1,
    setgroups_nerrs := 0, namespaces := 0, has_command := true }

/-- A capability environment with effective bits 0 and 2 set and no procfs
counter (the bisection path). -/
def capEnvW : CapEnv :=
  ⟨true, 6, 0, 5, 0, true, fun _ => true, fun c => decide (c ≤ 40), none⟩

def envC2W : Env := { envC2 with cap := capEnvW }

/-- An entry the per-entry loop actually calls `setns` on: enabled, matching
the phase mask, and holding an fd. -/
def attempted (mask : Nat) (n : NsFile) : Bool :=
  n.enabled && maskMatch n.nstype mask && !decide (n.fd < 0)

/-- The `CLONE_NEW*` constants, all single bits. -/
def valid_clone_flags : List Nat :=
  [CLONE_NEWTIME, CLONE_NEWNS, CLONE_NEWCGROUP, CLONE_NEWUTS,
   CLONE_NEWIPC, CLONE_NEWUSER, CLONE_NEWPID, CLONE_NEWNET]

def envC1 : SetnsEnv := ⟨fun _ _ => true⟩

/-- Only the user namespace enabled (fd 5): the same shape `-U` alone
produces after resolution. -/
def regC1 : List NsFile := regC2

def regC1_entered : List NsFile :=
  [ ⟨CLONE_NEWUSER, "ns/user", -1, false⟩,
    ⟨CLONE_NEWCGROUP, "ns/cgroup", -1, false⟩,
    ⟨CLONE_NEWIPC, "ns/ipc", -1, false⟩,
    ⟨CLONE_NEWUTS, "ns/uts", -1, false⟩,
    ⟨CLONE_NEWNET, "ns/net", -1, false⟩,
    ⟨CLONE_NEWPID, "ns/pid", -1, false⟩,
    ⟨CLONE_NEWNS, "ns/mnt", -1, false⟩,
    ⟨CLONE_NEWTIME, "ns/time", -1, false⟩ ]

/-- The pipeline position of each event class, in the order the code
executes them: pre-entry setgroups (0), namespace entry (1), directory
change (2), environment import (3), cgroup join (4), fork (5), credential
change (6), capability propagation (7), exec (8). -/
def phaseOf : Event → Nat
  | .setgroupsPre => 0
  | .setnsBatch _ _ => 1
  | .setnsOne _ _ _ => 1
  | .openDot _ => 2
  | .fchdirRoot _ => 2
  | .chrootDot => 2
  | .chdirSlash => 2
  | .openWdns _ _ => 2
  | .fchdirWd _ => 2
  | .envImport => 3
  | .cgroupJoin => 4
  | .forked => 5
  | .setgroupsPost => 6
  | .setgidCall _ => 6
  | .setuidCall _ => 6
  | .capProp => 7
  | .execCall => 8

/-- A registry with the user (fd 5) and pid (fd 7) namespaces enabled. -/
def regC5 : List NsFile :=
  [ ⟨CLONE_NEWUSER, "ns/user", 5, true⟩,
    ⟨CLONE_NEWCGROUP, "ns/cgroup", -1, false⟩,
    ⟨CLONE_NEWIPC, "ns/ipc", -1, false⟩,
    ⟨CLONE_NEWUTS, "ns/uts", -1, false⟩,
    ⟨CLONE_NEWNET, "ns/net", -1, false⟩,
    ⟨CLONE_NEWPID, "ns/pid", 7, true⟩,
    ⟨CLONE_NEWNS, "ns/mnt", -1, false⟩,
    ⟨CLONE_NEWTIME, "ns/time", -1, false⟩ ]

/-- An environment in which every syscall of a full-featured invocation
succeeds: root change, cgroup join, fork, credential change, capability
propagation and exec. -/
def envC5 : Env :=
  { fs := fsTriv
    openRO := fun _ => 9
    parentNs := ⟨fun _ => -1, fun _ => -1, fun _ => -1⟩
    skns := ⟨fun _ => -1, fun _ _ => -1, fun _ => false, fun _ => -1⟩
    setns := ⟨fun _ _ => true⟩
    is_cgroup2 := true
    cgroupContent := some "0::/foo\n".toList
    openAppend := fun _ => 10
    writeResults := [.ok 3]
    openDotFd := 11
    fchdir_ok := fun _ => true
    chroot_ok := true
    chdir_slash_ok := true
    openWdnsFd := fun _ => -1
    envRead := none
    setenv_ok := false
    st_uid := 0
    st_gid := 0
    setgroups_pre_ok := true
    setgroups_post_ok := true
    setgid_ok := fun _ => true
    setuid_ok := fun _ => true
    cap := capEnvTriv
    exec_ok := true }

/-- `-U -p` with explicit fds, `-r` (root change), cgroup join requested,
default fork resolution, credentials not preserved, `--keep-caps`. -/
def stC5 : St :=
  { reg := regC5, target := 7, sock_fd := -1, do_all := false,
    do_user_parent := false, do_rd := true, do_wd := false, do_env := false,
    do_uid := false, do_gid := false, do_join_cgroup := true, wdns := none,
    preserve_cred := false, keepcaps := true, force_uid := false,
    force_gid := false, uid := 0, gid := 0, do_fork := -1, root_fd := -1,
    wd_fd := -1, env_fd := -1, uid_gid_fd := -1, cgroup_procs_fd := -1,
    setgroups_nerrs := 0, namespaces := 0, has_command := true }

/-- The trace of the successful `envC5`/`stC5` run, in program order. -/
def trC5 : List Event :=
  [ Event.setgroupsPre,
    Event.setnsOne 7 CLONE_NEWPID "ns/pid",
    Event.setnsOne 5 CLONE_NEWUSER "ns/user",
    Event.openDot 11,
    Event.fchdirRoot 9,
    Event.chrootDot,
    Event.chdirSlash,
    Event.fchdirWd 11,
    Event.cgroupJoin,
    Event.forked,
    Event.setgroupsPost,
    Event.setgidCall 0,
    Event.setuidCall 0,
    Event.capProp,
    Event.execCall ]

/-! # Theorems -/

/-! ## Claim C9: the shared numeric parser rejects 0 -/

theorem str2unum_of_ok_zero (l : List Char) (h : ul_strtou64 l = .ok 0) :
    str2unum l = 0 := by
  simp only [str2unum, h]
  simp [ULONG_MAX]

theorem str2unum_or_err_of_zero (l : List Char) (msg : String)
    (h : str2unum l = 0) : str2unum_or_err l msg = .error (.parseFailed msg) := by
  simp [str2unum_or_err, h]

theorem follow_not_zero : ul_strtou64 "follow".toList = .error EINVAL := by decide

/-- C9: for each of the `-t` (target), `-S` (setuid) and `-G` (setgid)
option handlers, an argument that the underlying `ul_strtou64` parses to the
value 0 makes the invocation terminate with a parse error, because
`str2unum` collapses "parsed 0" and "parse failure" into the same return
value 0 and `str2unum_or_err` treats 0 as failure.  The literal string "0"
is such an argument. -/
theorem C9_zero_argument_is_parse_error :
    (∀ l : List Char, ul_strtou64 l = .ok 0 →
      opt_case_target l = .error (.parseFailed "failed to parse pid") ∧
      opt_case_setuid l = .error (.parseFailed "failed to parse uid") ∧
      opt_case_setgid l = .error (.parseFailed "failed to parse gid")) ∧
    ul_strtou64 "0".toList = .ok 0 := by
  constructor
  · intro l h
    have hz := str2unum_of_ok_zero l h
    have hne : l ≠ ['f', 'o', 'l', 'l', 'o', 'w'] := by
      intro he
      subst he
      exact absurd h (by decide)
    refine ⟨str2unum_or_err_of_zero l _ hz, ?_, ?_⟩
    · simp [opt_case_setuid, hne, str2unum_or_err_of_zero l _ hz, Except.map]
    · simp [opt_case_setgid, hne, str2unum_or_err_of_zero l _ hz, Except.map]
  · decide

/-- C9 witness: the theorem applied to the concrete argument "0". -/
theorem C9_zero_argument_is_parse_error_witness :
    opt_case_target "0".toList = .error (.parseFailed "failed to parse pid") ∧
    opt_case_setuid "0".toList = .error (.parseFailed "failed to parse uid") ∧
    opt_case_setgid "0".toList = .error (.parseFailed "failed to parse gid") :=
  C9_zero_argument_is_parse_error.1 "0".toList C9_zero_argument_is_parse_error.2

/-! ## Claim C6: fd ownership in the registry operations

`disable_nsfile` and the `setns`-success path close with a `fd >= 0` guard,
but `open_parent_user_ns_fd` closes the previously owned user fd with a
`user->fd > 0` guard: an owned descriptor 0 is replaced without being
closed, so two descriptors opened for the user kind are simultaneously open,
violating the "at most one open fd per kind / the entry's fd is closed when
released" invariant the spec states. -/

/-- C6: evaluating `open_parent_user_ns_fd` at the failing input.  With the
user entry owning fd 0, the parent fd 7 is installed but the list of closed
descriptors is empty — fd 0 is leaked while the entry already owns the new
fd.  With the user entry owning fd 3, the old fd is closed as the invariant
demands, showing the `> 0` guard (instead of `>= 0`) is the sole culprit. -/
theorem C6_parent_userns_leaks_fd_zero :
    open_parent_user_ns_fd envC6 (-1) 42 regC6_fd0 =
      .ok (⟨CLONE_NEWUSER, "ns/user", 7, true⟩ :: regC6_fd0.tail, []) ∧
    open_parent_user_ns_fd envC6 (-1) 42 regC6_fd3 =
      .ok (⟨CLONE_NEWUSER, "ns/user", 7, true⟩ :: regC6_fd3.tail, [3]) := by
  constructor <;> decide

/-! ## Claim C3: the `--all` user-namespace pre-filter compares inodes only -/

/-- C3 counterexample: the claim says the user-namespace candidate is
rejected exactly when the device+inode identities coincide.  Here the
identities differ (devices 1 vs 2), yet `is_usable_namespace` rejects the
candidate, because `get_ns_ino` keeps only `st_ino` and drops `st_dev`. -/
theorem C3_device_ignored_counterexample :
    is_usable_namespace fsC3 200 userEntryC3 = .ok false ∧
    spec_ns_identity fsC3 (procPath 100 "ns/user") = .ok (1, 5) ∧
    spec_ns_identity fsC3 (procPath 200 "ns/user") = .ok (2, 5) ∧
    ((1, 5) : Nat × Nat) ≠ ((2, 5) : Nat × Nat) := by
  refine ⟨by decide, by decide, by decide, by decide⟩

/-- Evaluation of `is_usable_namespace` on a user-namespace candidate whose
two stats succeed: the verdict depends only on the two inodes. -/
theorem is_usable_user_eval (fs : FsEnv) (target : Nat) (n : NsFile)
    (d1 i1 d2 i2 : Nat)
    (hself : fs.statFs (procPath fs.pid_self n.name) = .ok (d1, i1))
    (htgt : fs.statFs (procPath target n.name) = .ok (d2, i2))
    (huser : n.nstype = CLONE_NEWUSER) :
    is_usable_namespace fs target n =
      (if i1 = i2 then .ok false else .ok true) := by
  simp only [is_usable_namespace, get_ns_ino, hself, htgt, huser]
  simp +decide [CLONE_NEWUSER]

/-- C3 amended: during the `--all` scan the user-namespace candidate is
rejected exactly when its **inode** equals the inode of the caller's current
user namespace (the source device is not part of the comparison); a silent
rejection leaves the entry disabled and continues the scan, and a usable
candidate is enabled. -/
theorem C3_user_ns_filter_by_inode (fs : FsEnv) (target : Nat) (n : NsFile)
    (d1 i1 d2 i2 : Nat)
    (hself : fs.statFs (procPath fs.pid_self n.name) = .ok (d1, i1))
    (htgt : fs.statFs (procPath target n.name) = .ok (d2, i2))
    (huser : n.nstype = CLONE_NEWUSER) :
    (is_usable_namespace fs target n = .ok false ↔ i1 = i2) ∧
    (∀ rest : List NsFile, n.enabled = false →
      is_usable_namespace fs target n = .ok false →
      scan_all_loop fs target (n :: rest) =
        (scan_all_loop fs target rest).map (fun r => n :: r)) ∧
    (∀ rest : List NsFile, n.enabled = false →
      is_usable_namespace fs target n = .ok true →
      scan_all_loop fs target (n :: rest) =
        (scan_all_loop fs target rest).map
          (fun r => { n with enabled := true } :: r)) := by
  have heval := is_usable_user_eval fs target n d1 i1 d2 i2 hself htgt huser
  refine ⟨?_, ?_, ?_⟩
  · rw [heval]
    by_cases hi : i1 = i2
    · simp [hi]
    · simp [hi]
  · intro rest hen hu
    simp [scan_all_loop, hen, hu]
  · intro rest hen hu
    simp [scan_all_loop, hen, hu]

/-- C3 amended, witness: equal inodes on different devices are rejected and
the scan continues silently. -/
theorem C3_user_ns_filter_by_inode_witness :
    (is_usable_namespace fsC3 200 userEntryC3 = .ok false ↔ (5 : Nat) = 5) ∧
    (∀ rest : List NsFile, userEntryC3.enabled = false →
      is_usable_namespace fsC3 200 userEntryC3 = .ok false →
      scan_all_loop fsC3 200 (userEntryC3 :: rest) =
        (scan_all_loop fsC3 200 rest).map (fun r => userEntryC3 :: r)) :=
  ⟨(C3_user_ns_filter_by_inode fsC3 200 userEntryC3 1 5 2 5
      (by decide) (by decide) (by decide)).1,
   (C3_user_ns_filter_by_inode fsC3 200 userEntryC3 1 5 2 5
      (by decide) (by decide) (by decide)).2.1⟩

/-! ## Claim C4: error handling of the usability stat -/

/-- C4 counterexample: the claim says any non-`ENOENT` error while checking
a candidate is fatal.  Here the stat of the namespace path fails with
`EACCES`, yet `is_usable_namespace` returns `.ok true` — the error is
silently ignored and the candidate is even reported usable, because only a
return of exactly `-ENOENT` is inspected. -/
theorem C4_nonfatal_eacces_counterexample :
    is_usable_namespace fsC4 200 netEntryC4 = .ok true ∧ EACCES ≠ ENOENT := by
  refine ⟨by decide, by decide⟩

/-- C4 amended: during the `--all` scan, `ENOENT` from statting the caller's
own copy of the namespace path causes silent exclusion of the candidate; any
**other** errno from that stat is ignored and the candidate is treated as
accessible; only for the user namespace is a stat failure — of the target's
path, and of any errno — fatal, and that fatality propagates out of the
scan loop. -/
theorem C4_usability_error_handling (fs : FsEnv) (target : Nat) (n : NsFile) :
    (fs.statFs (procPath fs.pid_self n.name) = .error ENOENT →
      is_usable_namespace fs target n = .ok false) ∧
    (∀ e, e ≠ ENOENT → fs.statFs (procPath fs.pid_self n.name) = .error e →
      n.nstype &&& CLONE_NEWUSER = 0 →
      is_usable_namespace fs target n = .ok true) ∧
    (∀ d i er, fs.statFs (procPath fs.pid_self n.name) = .ok (d, i) →
      n.nstype &&& CLONE_NEWUSER ≠ 0 →
      fs.statFs (procPath target n.name) = .error er →
      is_usable_namespace fs target n =
        .error (.usableStatFailed (procPath target n.name))) ∧
    (∀ rest er, n.enabled = false →
      is_usable_namespace fs target n = .error er →
      scan_all_loop fs target (n :: rest) = .error er) := by
  refine ⟨?_, ?_, ?_, ?_⟩
  · intro h
    simp [is_usable_namespace, get_ns_ino, h]
  · intro e he h hu
    simp only [is_usable_namespace, get_ns_ino, h]
    simp [he, hu]
  · intro d i er hok hu htgt
    simp only [is_usable_namespace, get_ns_ino, hok, htgt]
    have : ¬((none : Option Nat) = some ENOENT) := by simp
    simp [this, hu]
  · intro rest er hen herr
    simp [scan_all_loop, hen, herr]

/-- C4 amended, witness. -/
theorem C4_usability_error_handling_witness :
    (∀ e, e ≠ ENOENT → fsC4.statFs (procPath fsC4.pid_self netEntryC4.name) = .error e →
      netEntryC4.nstype &&& CLONE_NEWUSER = 0 →
      is_usable_namespace fsC4 200 netEntryC4 = .ok true) ∧
    (fsC4.statFs (procPath fsC4.pid_self netEntryC4.name) = .error EACCES) ∧
    netEntryC4.nstype &&& CLONE_NEWUSER = 0 :=
  ⟨(C4_usability_error_handling fsC4 200 netEntryC4).2.1, by decide, by decide⟩

/-! ## Claim C8: the cgroup joiner -/

theorem dropWhile_eq_self_of_head (c : Char) (l : List Char)
    (h : l.head? ≠ some c) : l.dropWhile (· = c) = l := by
  cases l with
  | nil => rfl
  | cons a t =>
    have ha : ¬(a = c) := by
      intro hh
      exact h (by simp [hh])
    simp [List.dropWhile_cons, ha]

theorem strtok_first_of_head (c : Char) (l : List Char) (hne : l ≠ [])
    (h : l.head? ≠ some c) :
    strtok_first c l = some (l.takeWhile (· ≠ c)) := by
  unfold strtok_first
  rw [dropWhile_eq_self_of_head c l h]
  simp [hne]

theorem strrchr_suffix_of_contains (c : Char) (l : List Char)
    (h : l.contains c) :
    strrchr_suffix c l = some (l.reverse.takeWhile (· ≠ c)).reverse := by
  have h' : c ∈ l := by simpa using h
  simp [strrchr_suffix, h']

theorem write_all_done (rs : List WriteRes) : write_all rs 0 = some 0 := by
  cases rs with
  | nil => rfl
  | cons r rs => cases r <;> rfl

theorem write_all_partial (rs : List WriteRes) (n count : Nat) (hn : 0 < n)
    (hc : 0 < count) : write_all (.ok n :: rs) count = write_all rs (count - n) := by
  cases count with
  | zero => omega
  | succ k => simp [write_all, hn]

theorem write_all_retry (rs : List WriteRes) (count : Nat) (hc : 0 < count) :
    write_all (.err EINTR :: rs) count = write_all rs count ∧
    write_all (.err EAGAIN :: rs) count = write_all rs count := by
  cases count with
  | zero => omega
  | succ k => constructor <;> simp [write_all]

theorem write_all_fatal (rs : List WriteRes) (e count : Nat) (hc : 0 < count)
    (h1 : e ≠ EINTR) (h2 : e ≠ EAGAIN) :
    write_all (.err e :: rs) count = some (-1) := by
  cases count with
  | zero => omega
  | succ k => simp [write_all, h1, h2]

theorem write_all_complete :
    ∀ (rs : List WriteRes) (count : Nat),
      write_all rs count = some 0 → count ≤ writeConsumed rs := by
  intro rs
  induction rs with
  | nil =>
    intro count h
    cases count with
    | zero => exact Nat.le_refl 0
    | succ k => simp [write_all] at h
  | cons r rs ih =>
    intro count h
    cases count with
    | zero => exact Nat.zero_le _
    | succ k =>
      cases r with
      | ok n =>
        simp only [write_all] at h
        split at h
        · have := ih _ h
          simp only [writeConsumed]
          omega
        · simp at h
      | err e =>
        simp only [write_all] at h
        split at h
        · simp at h
        · have := ih _ h
          simp only [writeConsumed]
          omega

/-- C8: the cgroup joiner resolves the target's cgroup path as the text
after the last `:` on the first line of `/proc/<pid>/cgroup`, opens
`/sys/fs/cgroup/<path>/cgroup.procs` for append, and writes the caller's pid
in base 10 to it; `write_all` retries partial writes and `EINTR`/`EAGAIN`
until the whole buffer is written, and a non-retryable error makes the join
fatal. -/
theorem C8_cgroup_join (target : Nat) (openRO openAppend : String → Int)
    (buf : List Char) (pid : Nat) (rs : List WriteRes)
    (htgt : target ≠ 0)
    (hopen : openRO (procPath target "cgroup") ≥ 0)
    (hbuf : buf ≠ [])
    (hhead : buf.head? ≠ some '\n')
    (hcolon : (first_line buf).contains ':')
    (happend : openAppend ("/sys/fs/cgroup/" ++
        String.mk (after_last_colon (first_line buf)) ++ "/cgroup.procs") ≥ 0) :
    (open_cgroup_procs target openRO (some buf) openAppend =
      .ok (openAppend ("/sys/fs/cgroup/" ++
             String.mk (after_last_colon (first_line buf)) ++ "/cgroup.procs"),
           "/sys/fs/cgroup/" ++
             String.mk (after_last_colon (first_line buf)) ++ "/cgroup.procs")) ∧
    (join_into_cgroup pid rs = .ok ((Nat.repr pid).toList) ↔
      write_all rs (Nat.repr pid).toList.length = some 0) ∧
    (write_all rs (Nat.repr pid).toList.length = some 0 →
      (Nat.repr pid).toList.length ≤ writeConsumed rs) ∧
    (∀ (rs2 : List WriteRes) (n count : Nat), 0 < n → 0 < count →
      write_all (.ok n :: rs2) count = write_all rs2 (count - n)) ∧
    (∀ (rs2 : List WriteRes) (count : Nat), 0 < count →
      write_all (.err EINTR :: rs2) count = write_all rs2 count ∧
      write_all (.err EAGAIN :: rs2) count = write_all rs2 count) ∧
    (∀ (rs2 : List WriteRes) (e count : Nat), 0 < count → e ≠ EINTR → e ≠ EAGAIN →
      write_all (.err e :: rs2) count = some (-1)) ∧
    (∀ rs2 : List WriteRes,
      write_all rs2 (Nat.repr pid).toList.length = some (-1) →
      join_into_cgroup pid rs2 = .error .cgroupWriteFailed) := by
  refine ⟨?_, ?_, write_all_complete rs _, write_all_partial, write_all_retry,
    write_all_fatal, ?_⟩
  · have hro : ¬openRO (procPath target "cgroup") < 0 := by omega
    have hlen : ¬buf.length < 1 := by
      cases buf with
      | nil => exact absurd rfl hbuf
      | cons a t => simp
    have hap : ¬openAppend ("/sys/fs/cgroup/" ++
        String.mk (after_last_colon (first_line buf)) ++ "/cgroup.procs") < 0 := by
      omega
    simp only [first_line, after_last_colon] at hap ⊢
    simp only [ne_eq, decide_not] at hap ⊢
    have hcolon3 :
        (List.takeWhile (fun x => !decide (x = '\n')) buf).contains ':' = true := by
      have h2 := hcolon
      simp only [first_line, ne_eq, decide_not] at h2
      exact h2
    simp [open_cgroup_procs, htgt, hro, hlen,
      strtok_first_of_head '\n' buf hbuf hhead,
      strrchr_suffix_of_contains ':' _ hcolon3, hap]
  · have hjoin : join_into_cgroup pid rs =
        (match write_all rs (Nat.repr pid).toList.length with
         | some r => if r = 0 then .ok ((Nat.repr pid).toList)
                     else .error .cgroupWriteFailed
         | none => .error .cgroupWriteFailed) := rfl
    rw [hjoin]
    cases hw : write_all rs (Nat.repr pid).toList.length with
    | none => simp
    | some v =>
      by_cases hv : v = 0
      · subst hv
        simp
      · simp [hv]
  · intro rs2 hw
    have hjoin : join_into_cgroup pid rs2 =
        (match write_all rs2 (Nat.repr pid).toList.length with
         | some r => if r = 0 then .ok ((Nat.repr pid).toList)
                     else .error .cgroupWriteFailed
         | none => .error .cgroupWriteFailed) := rfl
    rw [hjoin, hw]
    rfl

/-- C8 witness: a target whose first `/proc/<pid>/cgroup` line is
`0::/foo`, and a pid 1234 written in two chunks with one `EINTR` retry. -/
theorem C8_cgroup_join_witness :
    ((42 : Nat) ≠ 0 ∧ "0::/foo\n".toList ≠ ([] : List Char)) ∧
    open_cgroup_procs 42 (fun _ => 3) (some "0::/foo\n".toList) (fun _ => 8) =
      .ok (8, "/sys/fs/cgroup//foo/cgroup.procs") ∧
    (join_into_cgroup 1234 [.ok 2, .err EINTR, .ok 2] = .ok "1234".toList ↔
      write_all [.ok 2, .err EINTR, .ok 2] "1234".toList.length = some 0) :=
  have h := C8_cgroup_join 42 (fun _ => 3) (fun _ => 8) "0::/foo\n".toList 1234
      [.ok 2, .err EINTR, .ok 2] (by decide) (by decide) (by decide) (by decide)
      (by decide) (by decide)
  ⟨⟨by decide, by decide⟩, by rw [h.1]; rfl, h.2.1⟩

/-! ## Claim C2: ambient capability propagation -/

/-- One unfolding of the bisection loop. -/
theorem bsearch_go_step (test : Nat → Bool) (fuel cap0 cap1 cap : Nat) :
    bsearch_go test (fuel + 1) cap0 cap1 cap =
      if cap0 < cap then
        if test cap then bsearch_go test fuel cap cap1 ((cap + cap1) / 2)
        else bsearch_go test fuel cap0 cap ((cap0 + cap) / 2)
      else cap := rfl

/-- Invariant proof for the bisection: with an honest
`prctl(PR_CAPBSET_READ)` (valid exactly up to `klast`), fuel `k + 1` finds
`klast` from any bracketing interval of width at most `2 ^ k`. -/
theorem bsearch_go_inv (klast : Nat) :
    ∀ (k cap0 cap1 : Nat), cap0 ≤ klast → klast < cap1 → cap1 - cap0 ≤ 2 ^ k →
      bsearch_go (fun c => decide (c ≤ klast)) (k + 1) cap0 cap1
        ((cap0 + cap1) / 2) = klast := by
  intro k
  induction k with
  | zero =>
    intro cap0 cap1 h0 h1 hlen
    have hc : cap1 = cap0 + 1 := by omega
    subst hc
    have hcap : (cap0 + (cap0 + 1)) / 2 = cap0 := by omega
    rw [hcap, bsearch_go_step, if_neg (lt_irrefl cap0)]
    omega
  | succ k ih =>
    intro cap0 cap1 h0 h1 hlen
    have hpow : 2 ^ (k + 1) = 2 * 2 ^ k := by ring
    rw [bsearch_go_step]
    by_cases hlt : cap0 < (cap0 + cap1) / 2
    · rw [if_pos hlt]
      by_cases htest : (cap0 + cap1) / 2 ≤ klast
      · rw [if_pos (by simpa using htest)]
        exact ih ((cap0 + cap1) / 2) cap1 htest h1 (by omega)
      · rw [if_neg (by simpa using htest)]
        exact ih cap0 ((cap0 + cap1) / 2) h0 (by omega) (by omega)
    · rw [if_neg hlt]
      omega

/-- The full bisection finds the last valid capability. -/
theorem cap_last_by_bsearch_correct (klast : Nat) (h : klast < INT_MAX) :
    cap_last_by_bsearch (fun c => decide (c ≤ klast)) = klast := by
  unfold cap_last_by_bsearch
  rw [show (64 : Nat) = 63 + 1 from rfl, bsearch_go_step]
  rw [if_pos (by simp [INT_MAX] : 0 < INT_MAX)]
  rw [if_neg (by simp; omega)]
  exact bsearch_go_inv klast 62 0 INT_MAX (Nat.zero_le _) h
    (by norm_num [INT_MAX])

/-- `cap_last_cap` under an honest kernel: whether the procfs counter is
available or the bisection runs, the result is the true last capability. -/
theorem cap_last_cap_honest (klast : Nat) (h : klast < INT_MAX)
    (counter : Option Nat) (hc : counter = none ∨ counter = some klast) :
    cap_last_cap (fun c => decide (c ≤ klast)) counter = klast := by
  rcases hc with hc | hc <;> subst hc
  · simp [cap_last_cap, cap_last_by_procfs, cap_last_by_bsearch_correct klast h]
  · simp [cap_last_cap, cap_last_by_procfs, h]

/-- If the raise loop returns, then every capability in its range that is at
most `last` and set in `effective` was raised (it is in the returned list and
its `prctl` succeeded). -/
theorem raise_caps_ok_mem (r : Nat → Bool) (eff last : Nat) :
    ∀ (fuel start : Nat) (l : List Nat),
      raise_caps r eff last fuel start = .ok l →
      ∀ c, start ≤ c → c < start + fuel → c ≤ last → eff.testBit c = true →
        c ∈ l ∧ r c = true := by
  intro fuel
  induction fuel with
  | zero =>
    intro start l _ c h1 h2
    omega
  | succ fuel ih =>
    intro start l h c h1 h2 h3 h4
    simp only [raise_caps] at h
    by_cases hgt : start > last
    · rw [if_pos hgt] at h
      have hcs : c ≠ start := by omega
      exact ih (start + 1) l h c (by omega) (by omega) h3 h4
    · rw [if_neg hgt] at h
      by_cases hbit : eff.testBit start = true
      · rw [if_pos hbit] at h
        by_cases hro : r start = true
        · rw [if_pos hro] at h
          cases hrec : raise_caps r eff last fuel (start + 1) with
          | error er =>
            rw [hrec] at h
            simp [Except.map] at h
          | ok l' =>
            rw [hrec] at h
            simp only [Except.map, Except.ok.injEq] at h
            subst h
            by_cases hcs : c = start
            · subst hcs
              exact ⟨List.mem_cons_self _ _, hro⟩
            · have := ih (start + 1) l' hrec c (by omega) (by omega) h3 h4
              exact ⟨List.mem_cons_of_mem _ this.1, this.2⟩
        · rw [if_neg hro] at h
          cases h
      · rw [if_neg hbit] at h
        have hcs : c ≠ start := by
          intro he
          subst he
          exact hbit h4
        exact ih (start + 1) l h c (by omega) (by omega) h3 h4

/-- C2 counterexample: a run with `--keep-caps` in which the user namespace
is the **only** enabled namespace.  The phase-1 mask
`namespaces & ~CLONE_NEWUSER` is then 0, which the registry iterator treats
as "no filter", so the user namespace is entered already in phase 1; the
recomputed `namespaces` variable is 0 when the capability guard
`keepcaps && (namespaces & CLONE_NEWUSER)` runs, and propagation is skipped
entirely — the trace of the successful run contains the user `setns` but no
capability propagation, contradicting the claim that entering the user
namespace with keep_capabilities set propagates capabilities. -/
theorem C2_keepcaps_skipped_counterexample :
    do_nsenter_core envC2 stC2 =
      .ok [Event.setnsOne 5 CLONE_NEWUSER "ns/user", Event.execCall] ∧
    stC2.keepcaps = true ∧
    Event.capProp ∉ [Event.setnsOne 5 CLONE_NEWUSER "ns/user", Event.execCall] := by
  refine ⟨by decide, by decide, by decide⟩

/-- C2 amended: when keep_capabilities is set and the user namespace is
still in the namespace mask recomputed after phase 1 (the normal case: its
entry survives to phase 2; the exception is a user-only invocation consumed
by phase 1's unfiltered pass), `cap_permitted_to_ambient` runs and its
failure is fatal; the propagation sets the inheritable words equal to the
permitted words via `capset`, and raises into the ambient set every
effective capability whose index is at most `cap_last_cap` (the procfs
counter when sane, otherwise bisection over `PR_CAPBSET_READ`); any
`capget`, `capset` or `prctl` failure is fatal. -/
theorem C2_keepcaps_ambient_propagation (ep : Env) (s : St) (klast : Nat)
    (hb : ep.cap.capbset = fun c => decide (c ≤ klast))
    (hk : klast < INT_MAX)
    (hcnt : ep.cap.caplastcap = none ∨ ep.cap.caplastcap = some klast)
    (he0 : ep.cap.eff0 < 2 ^ 32) (he1 : ep.cap.eff1 < 2 ^ 32) :
    (s.keepcaps = true → s.namespaces &&& CLONE_NEWUSER ≠ 0 →
      stage_caps ep s =
        (cap_permitted_to_ambient ep.cap).map (fun _ => (s, [Event.capProp]))) ∧
    (ep.cap.capget_ok = false →
      cap_permitted_to_ambient ep.cap = .error .capgetFailed) ∧
    (ep.cap.capget_ok = true → ep.cap.capset_ok = false →
      cap_permitted_to_ambient ep.cap = .error .capsetFailed) ∧
    (∀ out, cap_permitted_to_ambient ep.cap = .ok out →
      out.inh0 = ep.cap.perm0 ∧ out.inh1 = ep.cap.perm1 ∧
      ∀ c, c ≤ klast →
        ((ep.cap.eff1 <<< 32) ||| ep.cap.eff0).testBit c = true →
        c ∈ out.raised ∧ ep.cap.raise_ok c = true) := by
  refine ⟨?_, ?_, ?_, ?_⟩
  · intro hkc hns
    have hns' : (s.keepcaps && s.namespaces &&& CLONE_NEWUSER != 0) = true := by
      simp [hkc, hns]
    unfold stage_caps
    rw [if_pos hns']
    cases h : cap_permitted_to_ambient ep.cap <;> simp [Except.map]
  · intro h
    simp [cap_permitted_to_ambient, h]
  · intro h1 h2
    simp [cap_permitted_to_ambient, h1, h2]
  · intro out hout
    have heff : (ep.cap.eff1 <<< 32) ||| ep.cap.eff0 < 2 ^ 64 := by
      apply Nat.or_lt_two_pow
      · calc ep.cap.eff1 <<< 32 = ep.cap.eff1 * 2 ^ 32 := by
              rw [Nat.shiftLeft_eq]
          _ < 2 ^ 32 * 2 ^ 32 := by
              have h32 : (0 : Nat) < 2 ^ 32 := by norm_num
              exact Nat.mul_lt_mul_of_lt_of_le he1 (Nat.le_refl _) h32
          _ = 2 ^ 64 := by norm_num
      · exact lt_trans he0 (by norm_num)
    simp only [cap_permitted_to_ambient] at hout
    by_cases hg : ep.cap.capget_ok
    · rw [if_neg (by simp [hg])] at hout
      by_cases hs2 : ep.cap.capset_ok
      · rw [if_neg (by simp [hs2])] at hout
        cases hraise : raise_caps ep.cap.raise_ok
            ((ep.cap.eff1 <<< 32) ||| ep.cap.eff0)
            (cap_last_cap ep.cap.capbset ep.cap.caplastcap) 64 0 with
        | error er =>
          rw [hraise] at hout
          simp [Except.map] at hout
        | ok l =>
          rw [hraise] at hout
          simp only [Except.map, Except.ok.injEq] at hout
          subst hout
          refine ⟨rfl, rfl, ?_⟩
          intro c hc hbit
          have hlast : cap_last_cap ep.cap.capbset ep.cap.caplastcap = klast := by
            rw [hb]
            exact cap_last_cap_honest klast hk ep.cap.caplastcap hcnt
          have hc64 : c < 64 := by
            by_contra hge
            have : ((ep.cap.eff1 <<< 32) ||| ep.cap.eff0).testBit c = false := by
              apply Nat.testBit_lt_two_pow
              calc (ep.cap.eff1 <<< 32) ||| ep.cap.eff0 < 2 ^ 64 := heff
                _ ≤ 2 ^ c := Nat.pow_le_pow_right (by norm_num) (by omega)
            rw [this] at hbit
            cases hbit
          rw [hlast] at hraise
          exact raise_caps_ok_mem ep.cap.raise_ok _ klast 64 0 l hraise c
            (Nat.zero_le c) (by omega) hc hbit
      · rw [if_pos (by simp [hs2])] at hout
        cases hout
    · rw [if_pos (by simp [hg])] at hout
      cases hout

/-- C2 amended, witness: a concrete environment whose last capability (40)
is found by bisection, with effective capabilities 0 and 2 both raised. -/
theorem C2_keepcaps_ambient_propagation_witness :
    (envC2W.cap.capbset = fun c => decide (c ≤ 40)) ∧ 40 < INT_MAX ∧
    (∀ out, cap_permitted_to_ambient envC2W.cap = .ok out →
      out.inh0 = envC2W.cap.perm0 ∧ out.inh1 = envC2W.cap.perm1 ∧
      ∀ c, c ≤ 40 →
        ((envC2W.cap.eff1 <<< 32) ||| envC2W.cap.eff0).testBit c = true →
        c ∈ out.raised ∧ envC2W.cap.raise_ok c = true) ∧
    cap_permitted_to_ambient envC2W.cap = .ok ⟨6, 0, [0, 2]⟩ :=
  ⟨rfl, by norm_num [INT_MAX],
   (C2_keepcaps_ambient_propagation envC2W stC2 40 rfl (by norm_num [INT_MAX])
      (Or.inl rfl) (by norm_num [envC2W, capEnvW, envC2])
      (by norm_num [envC2W, capEnvW, envC2])).2.2.2,
   by decide⟩

/-! ## Claims C1 and C10: the two-phase sequencer -/

theorem valid_flag_pow (t : Nat) (h : t ∈ valid_clone_flags) :
    ∃ k, k < 31 ∧ t = 2 ^ k := by
  fin_cases h
  · exact ⟨7, by norm_num, by norm_num [CLONE_NEWTIME]⟩
  · exact ⟨17, by norm_num, by norm_num [CLONE_NEWNS]⟩
  · exact ⟨25, by norm_num, by norm_num [CLONE_NEWCGROUP]⟩
  · exact ⟨26, by norm_num, by norm_num [CLONE_NEWUTS]⟩
  · exact ⟨27, by norm_num, by norm_num [CLONE_NEWIPC]⟩
  · exact ⟨28, by norm_num, by norm_num [CLONE_NEWUSER]⟩
  · exact ⟨29, by norm_num, by norm_num [CLONE_NEWPID]⟩
  · exact ⟨30, by norm_num, by norm_num [CLONE_NEWNET]⟩

theorem valid_flag_and_not_user (t : Nat) (h : t ∈ valid_clone_flags)
    (hne : t ≠ CLONE_NEWUSER) : t &&& NOT_NEWUSER = t := by
  fin_cases h <;> first | (exact absurd rfl hne) | decide

theorem user_and_not_user : CLONE_NEWUSER &&& NOT_NEWUSER = 0 := by decide

/-- The enabled OR-mask has the bit of every enabled entry. -/
theorem get_namespaces_own_bit (reg : List NsFile) (n : NsFile)
    (hmem : n ∈ reg) (hen : n.enabled = true) (k : Nat) (ht : n.nstype = 2 ^ k) :
    (get_namespaces reg).testBit k = true := by
  induction reg with
  | nil => cases hmem
  | cons m rest ih =>
    simp only [get_namespaces, Nat.testBit_lor]
    rcases List.mem_cons.mp hmem with hm | hm
    · subst hm
      rw [hen, if_pos rfl, ht]
      simp [Nat.testBit_two_pow_self]
    · rw [ih hm]
      simp

theorem get_namespaces_without_fd_own_bit (reg : List NsFile) (n : NsFile)
    (hmem : n ∈ reg) (hen : n.enabled = true) (hfd : n.fd < 0)
    (k : Nat) (ht : n.nstype = 2 ^ k) :
    (get_namespaces_without_fd reg).testBit k = true := by
  induction reg with
  | nil => cases hmem
  | cons m rest ih =>
    simp only [get_namespaces_without_fd, Nat.testBit_lor]
    rcases List.mem_cons.mp hmem with hm | hm
    · subst hm
      rw [if_pos (by simp [hen, hfd]), ht]
      simp [Nat.testBit_two_pow_self]
    · rw [ih hm]
      simp

theorem testBit_ne_zero {m k : Nat} (h : m.testBit k = true) : m ≠ 0 := by
  intro h0
  subst h0
  simp [Nat.zero_testBit] at h

theorem pow_and_ne_zero {k m : Nat} (h : m.testBit k = true) :
    2 ^ k &&& m ≠ 0 := by
  intro h0
  have : (2 ^ k &&& m).testBit k = true := by
    rw [Nat.testBit_land, h, Nat.testBit_two_pow_self]
    rfl
  rw [h0] at this
  simp [Nat.zero_testBit] at this

/-- An enabled valid-flag entry always matches the full enabled mask. -/
theorem maskMatch_own (reg : List NsFile) (n : NsFile) (hmem : n ∈ reg)
    (hen : n.enabled = true) (hv : n.nstype ∈ valid_clone_flags) :
    maskMatch n.nstype (get_namespaces reg) = true := by
  obtain ⟨k, _, ht⟩ := valid_flag_pow n.nstype hv
  unfold maskMatch
  by_cases h0 : get_namespaces reg = 0
  · simp [h0]
  · have hbit := get_namespaces_own_bit reg n hmem hen k ht
    have := pow_and_ne_zero hbit
    rw [← ht] at this
    simp [h0, this]

theorem attempted_false_of_guard (mask : Nat) (n : NsFile)
    (h1 : ¬(n.enabled && maskMatch n.nstype mask) = true) :
    attempted mask n = false := by
  simp only [attempted]
  cases hA : n.enabled <;> cases hB : maskMatch n.nstype mask <;> simp_all

/-- The per-entry loop with errors ignored: total, consuming successfully
entered entries via `disable_nsfile`, leaving failed attempts untouched, and
emitting one `setnsOne` per attempted entry in registry order. -/
theorem enter_loop_ignore_eq (e : SetnsEnv) (mask : Nat) (reg : List NsFile) :
    enter_loop e mask true reg =
      .ok (reg.map (fun n =>
             if attempted mask n && e.setns_ok n.fd n.nstype
             then (disable_nsfile n).1 else n),
           (reg.filter (attempted mask)).map
             (fun n => Event.setnsOne n.fd n.nstype n.name)) := by
  induction reg with
  | nil => rfl
  | cons n rest ih =>
    simp only [enter_loop]
    by_cases h1 : (n.enabled && maskMatch n.nstype mask) = true
    · rw [if_pos h1]
      by_cases h2 : n.fd < 0
      · rw [if_pos h2, ih]
        have ha : attempted mask n = false := by
          simp [attempted, h2]
        simp [Except.map, ha]
      · rw [if_neg h2]
        have ha : attempted mask n = true := by
          simp only [attempted, Bool.and_eq_true] at h1 ⊢
          simp [h1.1, h1.2, h2]
        by_cases h3 : e.setns_ok n.fd n.nstype = true
        · rw [if_pos h3, ih]
          simp [Except.map, ha, h3]
        · rw [if_neg h3, if_pos trivial, ih]
          simp only [Bool.not_eq_true] at h3
          simp [Except.map, ha, h3]
    · rw [if_neg h1, ih]
      have ha := attempted_false_of_guard mask n h1
      simp [Except.map, ha]

/-- The per-entry loop with errors fatal, success case. -/
theorem enter_loop_strict_ok (e : SetnsEnv) (mask : Nat) (reg : List NsFile)
    (hall : ∀ n ∈ reg, attempted mask n = true → e.setns_ok n.fd n.nstype = true) :
    enter_loop e mask false reg =
      .ok (reg.map (fun n => if attempted mask n then (disable_nsfile n).1 else n),
           (reg.filter (attempted mask)).map
             (fun n => Event.setnsOne n.fd n.nstype n.name)) := by
  induction reg with
  | nil => rfl
  | cons n rest ih =>
    have ihr := ih (fun m hm => hall m (List.mem_cons_of_mem n hm))
    simp only [enter_loop]
    by_cases h1 : (n.enabled && maskMatch n.nstype mask) = true
    · rw [if_pos h1]
      by_cases h2 : n.fd < 0
      · rw [if_pos h2, ihr]
        have ha : attempted mask n = false := by simp [attempted, h2]
        simp [Except.map, ha]
      · rw [if_neg h2]
        have ha : attempted mask n = true := by
          simp only [attempted, Bool.and_eq_true] at h1 ⊢
          simp [h1.1, h1.2, h2]
        have h3 := hall n (List.mem_cons_self n rest) ha
        rw [if_pos h3, ihr]
        simp [Except.map, ha]
    · rw [if_neg h1, ihr]
      have ha := attempted_false_of_guard mask n h1
      simp [Except.map, ha]

/-- The per-entry loop with errors fatal: the first failing attempted entry
aborts the process naming its namespace. -/
theorem enter_loop_strict_err (e : SetnsEnv) (mask : Nat) :
    ∀ (reg : List NsFile) (n₀ : NsFile),
      reg.find? (fun n => attempted mask n && !e.setns_ok n.fd n.nstype) = some n₀ →
      enter_loop e mask false reg = .error (.nsEntryFailed n₀.name) := by
  intro reg
  induction reg with
  | nil => intro n₀ h; cases h
  | cons n rest ih =>
    intro n₀ h
    rw [List.find?_cons] at h
    by_cases hp : (attempted mask n && !e.setns_ok n.fd n.nstype) = true
    · rw [hp] at h
      simp only [Option.some.injEq] at h
      subst h
      simp only [Bool.and_eq_true, Bool.not_eq_true'] at hp
      obtain ⟨ha, hko⟩ := hp
      simp only [attempted, Bool.and_eq_true] at ha
      obtain ⟨⟨hen, hmm⟩, hfd⟩ := ha
      simp only [enter_loop]
      rw [if_pos (by simp [hen, hmm])]
      rw [if_neg (by simpa using hfd)]
      rw [if_neg (by simp [hko]), if_neg (by simp)]
    · have hp' : (attempted mask n && !e.setns_ok n.fd n.nstype) = false :=
        Bool.eq_false_iff.mpr hp
      rw [hp'] at h
      have ihr := ih n₀ h
      simp only [Bool.and_eq_true, Bool.not_eq_true'] at hp
      simp only [enter_loop]
      by_cases h1 : (n.enabled && maskMatch n.nstype mask) = true
      · rw [if_pos h1]
        by_cases h2 : n.fd < 0
        · rw [if_pos h2, ihr]
          rfl
        · rw [if_neg h2]
          have ha : attempted mask n = true := by
            simp only [attempted, Bool.and_eq_true] at h1 ⊢
            simp [h1.1, h1.2, h2]
          have h3 : e.setns_ok n.fd n.nstype = true := by
            by_contra hc
            exact hp ⟨ha, by simpa using hc⟩
          rw [if_pos h3, ihr]
          rfl
      · rw [if_neg h1, ihr]
        rfl

/-- With every enabled entry holding an fd, the batched-`setns` mask is 0. -/
theorem batch_mask_zero (mask : Nat) (reg : List NsFile)
    (h : ∀ n ∈ reg, n.enabled = true → 0 ≤ n.fd) :
    batch_mask mask reg = 0 := by
  induction reg with
  | nil => rfl
  | cons n rest ih =>
    have ihr := ih (fun m hm => h m (List.mem_cons_of_mem n hm))
    simp only [batch_mask, ihr]
    have : ¬(n.enabled && maskMatch n.nstype mask && decide (n.fd < 0)) = true := by
      simp only [Bool.and_eq_true, decide_eq_true_eq]
      rintro ⟨⟨hen, _⟩, hlt⟩
      have := h n (List.mem_cons_self n rest) hen
      omega
    rw [if_neg this]
    decide

/-- With a zero batch mask, `enter_namespaces` is the per-entry loop: the
fd-batched branch is skipped for any `pid_fd`. -/
theorem enter_namespaces_no_batch (e : SetnsEnv) (pid_fd : Int)
    (reg : List NsFile) (mask : Nat) (ignore : Bool)
    (h : batch_mask mask reg = 0) :
    enter_namespaces e pid_fd reg mask ignore = enter_loop e mask ignore reg := by
  unfold enter_namespaces
  by_cases hp : pid_fd ≠ 0
  · rw [if_pos hp, if_neg (by simp [h])]
  · rw [if_neg hp]

/-- C1 counterexample: when the user namespace is the only enabled entry,
the phase-1 mask `namespaces & ~CLONE_NEWUSER` is 0, which the registry
iterator treats as "no filter": phase 1 attempts — and here consumes — the
**user** namespace, and phase 2 runs on nothing (final mask 0).  The claim
that phase 1 attempts setns for every enabled namespace *except the user
namespace* is false on this input: the only setns of the run happens in
phase 1, on the user namespace. -/
theorem C1_phase1_attempts_user_counterexample :
    (get_namespaces regC1) &&& NOT_NEWUSER = 0 ∧
    enter_namespaces envC1 (-1) regC1
        ((get_namespaces regC1) &&& NOT_NEWUSER) true =
      .ok (regC1_entered, [Event.setnsOne 5 CLONE_NEWUSER "ns/user"]) ∧
    two_phase envC1 (-1) regC1 (get_namespaces regC1) =
      .ok (regC1_entered, [Event.setnsOne 5 CLONE_NEWUSER "ns/user"], 0) := by
  refine ⟨by decide, by decide, by decide⟩

/-- C1 amended: namespace entry is performed in two phases.  Phase 1 masks
the user namespace out of the enabled mask and tolerates every `setns`
failure: a failed entry is left enabled with its fd intact, a successful one
is consumed (fd closed, enabled cleared).  When at least one non-user
namespace is enabled, phase 1 attempts exactly the enabled non-user entries;
when the user namespace is the *only* enabled namespace, the phase-1 mask is
0, which the iterator treats as "no filter", so even the user namespace is
attempted already in phase 1 (errors still ignored).  Phase 2 then attempts
every still-enabled namespace, the user namespace included, and its first
`setns` failure terminates the process with a nonzero exit naming the
namespace. -/
theorem C1_two_phase_entry (e : SetnsEnv) (reg : List NsFile)
    (hfd : ∀ n ∈ reg, n.enabled = true → 0 ≤ n.fd)
    (hvt : ∀ n ∈ reg, n.nstype ∈ valid_clone_flags) :
    (enter_namespaces e (-1) reg ((get_namespaces reg) &&& NOT_NEWUSER) true =
      .ok (reg.map (fun n =>
             if attempted ((get_namespaces reg) &&& NOT_NEWUSER) n &&
                e.setns_ok n.fd n.nstype
             then (disable_nsfile n).1 else n),
           (reg.filter (attempted ((get_namespaces reg) &&& NOT_NEWUSER))).map
             (fun n => Event.setnsOne n.fd n.nstype n.name))) ∧
    ((get_namespaces reg) &&& NOT_NEWUSER ≠ 0 →
      ∀ n ∈ reg, n.enabled = true →
        (attempted ((get_namespaces reg) &&& NOT_NEWUSER) n = true ↔
          n.nstype ≠ CLONE_NEWUSER)) ∧
    ((get_namespaces reg) &&& NOT_NEWUSER = 0 →
      ∀ n ∈ reg, n.enabled = true →
        attempted ((get_namespaces reg) &&& NOT_NEWUSER) n = true) ∧
    (∀ n ∈ reg, n.enabled = true → attempted (get_namespaces reg) n = true) ∧
    (∀ n₀, reg.find? (fun n => attempted (get_namespaces reg) n &&
        !e.setns_ok n.fd n.nstype) = some n₀ →
      enter_namespaces e (-1) reg (get_namespaces reg) false =
        .error (.nsEntryFailed n₀.name)) ∧
    ((∀ n ∈ reg, attempted (get_namespaces reg) n = true →
        e.setns_ok n.fd n.nstype = true) →
      enter_namespaces e (-1) reg (get_namespaces reg) false =
        .ok (reg.map (fun n => if attempted (get_namespaces reg) n
                then (disable_nsfile n).1 else n),
             (reg.filter (attempted (get_namespaces reg))).map
               (fun n => Event.setnsOne n.fd n.nstype n.name))) := by
  have hbz : ∀ mask, batch_mask mask reg = 0 := fun mask => batch_mask_zero mask reg hfd
  refine ⟨?_, ?_, ?_, ?_, ?_, ?_⟩
  · rw [enter_namespaces_no_batch e (-1) reg _ true (hbz _)]
    exact enter_loop_ignore_eq e _ reg
  · intro hm1 n hmem hen
    have hfdn := hfd n hmem hen
    have hv := hvt n hmem
    constructor
    · intro ha hu
      simp only [attempted, Bool.and_eq_true] at ha
      have hmm := ha.1.2
      rw [hu] at hmm
      unfold maskMatch at hmm
      rw [Nat.land_comm (get_namespaces reg) NOT_NEWUSER, ← Nat.land_assoc,
        user_and_not_user, Nat.zero_and] at hmm
      simp only [Bool.or_eq_true, beq_iff_eq, bne_iff_ne, ne_eq] at hmm
      rcases hmm with hmm | hmm
      · exact hm1 (by rw [Nat.land_comm]; exact hmm)
      · exact hmm trivial
    · intro hu
      simp only [attempted]
      have hmm : maskMatch n.nstype ((get_namespaces reg) &&& NOT_NEWUSER) = true := by
        unfold maskMatch
        have h1 : n.nstype &&& ((get_namespaces reg) &&& NOT_NEWUSER) =
            n.nstype &&& get_namespaces reg := by
          rw [Nat.land_comm (get_namespaces reg) NOT_NEWUSER, ← Nat.land_assoc,
            valid_flag_and_not_user n.nstype hv hu]
        rw [h1]
        obtain ⟨k, _, ht⟩ := valid_flag_pow n.nstype hv
        have hbit := get_namespaces_own_bit reg n hmem hen k ht
        have hne := pow_and_ne_zero hbit
        rw [← ht] at hne
        simp [hne]
      simp [hen, hmm, hfdn]
  · intro hm1 n hmem hen
    have hfdn := hfd n hmem hen
    simp [attempted, hen, maskMatch, hm1]
    omega
  · intro n hmem hen
    have hfdn := hfd n hmem hen
    have hmm := maskMatch_own reg n hmem hen (hvt n hmem)
    simp [attempted, hen, hmm]
    omega
  · intro n₀ hfind
    rw [enter_namespaces_no_batch e (-1) reg _ false (hbz _)]
    exact enter_loop_strict_err e _ reg n₀ hfind
  · intro hall
    rw [enter_namespaces_no_batch e (-1) reg _ false (hbz _)]
    exact enter_loop_strict_ok e _ reg hall

/-- C1 amended, witness: user and mount namespaces enabled with fds 5 and 6;
the mount `setns` fails in phase 1 (tolerated) and would fail fatally in
phase 2. -/
theorem C1_two_phase_entry_witness :
    (∀ n ∈ regC1, n.enabled = true → 0 ≤ n.fd) ∧
    ((get_namespaces regC1) &&& NOT_NEWUSER = 0 →
      ∀ n ∈ regC1, n.enabled = true →
        attempted ((get_namespaces regC1) &&& NOT_NEWUSER) n = true) :=
  ⟨by decide,
   (C1_two_phase_entry envC1 regC1 (by decide) (by decide)).2.2.1⟩

/-! ### Resolution postconditions (claim C10) -/

theorem fdinv_of_without_fd_zero (reg : List NsFile)
    (hvt : ∀ n ∈ reg, n.nstype ∈ valid_clone_flags)
    (h : get_namespaces_without_fd reg = 0) :
    ∀ n ∈ reg, n.enabled = true → 0 ≤ n.fd := by
  intro n hmem hen
  by_contra hneg
  have hfd : n.fd < 0 := by omega
  obtain ⟨k, _, ht⟩ := valid_flag_pow n.nstype (hvt n hmem)
  have hbit := get_namespaces_without_fd_own_bit reg n hmem hen hfd k ht
  rw [h] at hbit
  simp [Nat.zero_testBit] at hbit

theorem maskMatch_own_without_fd (reg : List NsFile) (n : NsFile)
    (hmem : n ∈ reg) (hen : n.enabled = true) (hfd : n.fd < 0)
    (hv : n.nstype ∈ valid_clone_flags) :
    maskMatch n.nstype (get_namespaces_without_fd reg) = true := by
  obtain ⟨k, _, ht⟩ := valid_flag_pow n.nstype hv
  unfold maskMatch
  by_cases h0 : get_namespaces_without_fd reg = 0
  · simp [h0]
  · have hbit := get_namespaces_without_fd_own_bit reg n hmem hen hfd k ht
    have := pow_and_ne_zero hbit
    rw [← ht] at this
    simp [h0, this]

/-- After `open_namespaces`, every enabled entry covered by the mask holds an
fd, and kinds/enabled flags are preserved entrywise. -/
theorem open_namespaces_loop_post (openRO : String → Int) (target mask : Nat) :
    ∀ (reg reg' : List NsFile),
      open_namespaces_loop openRO target mask reg = .ok reg' →
      (∀ n ∈ reg, n.enabled = true → n.fd < 0 → maskMatch n.nstype mask = true) →
      (∀ n ∈ reg', n.enabled = true → 0 ≤ n.fd) ∧
      (∀ n' ∈ reg', ∃ n ∈ reg, n'.nstype = n.nstype ∧ n'.enabled = n.enabled) := by
  intro reg
  induction reg with
  | nil =>
    intro reg' h _
    cases h
    constructor
    · intro n hn
      cases hn
    · intro n hn
      cases hn
  | cons n rest ih =>
    intro reg' h hmask
    have hmask' : ∀ m ∈ rest, m.enabled = true → m.fd < 0 →
        maskMatch m.nstype mask = true :=
      fun m hm => hmask m (List.mem_cons_of_mem n hm)
    simp only [open_namespaces_loop] at h
    by_cases hg : (n.enabled && maskMatch n.nstype mask && decide (n.fd < 0)) = true
    · rw [if_pos hg] at h
      by_cases ht : target = 0
      · rw [if_pos ht] at h
        cases h
      · rw [if_neg ht] at h
        by_cases ho : openRO (procPath target n.name) < 0
        · rw [if_pos ho] at h
          cases h
        · rw [if_neg ho] at h
          cases hrec : open_namespaces_loop openRO target mask rest with
          | error er => rw [hrec] at h; cases h
          | ok rest' =>
            rw [hrec] at h
            simp only [Except.map, Except.ok.injEq] at h
            subst h
            obtain ⟨ih1, ih2⟩ := ih rest' hrec hmask'
            constructor
            · intro m hm hen
              rcases List.mem_cons.mp hm with hm | hm
              · subst hm
                simp only
                omega
              · exact ih1 m hm hen
            · intro m hm
              rcases List.mem_cons.mp hm with hm | hm
              · subst hm
                exact ⟨n, List.mem_cons_self n rest, rfl, rfl⟩
              · obtain ⟨n2, hn2, he⟩ := ih2 m hm
                exact ⟨n2, List.mem_cons_of_mem n hn2, he⟩
    · rw [if_neg hg] at h
      cases hrec : open_namespaces_loop openRO target mask rest with
      | error er => rw [hrec] at h; cases h
      | ok rest' =>
        rw [hrec] at h
        simp only [Except.map, Except.ok.injEq] at h
        subst h
        obtain ⟨ih1, ih2⟩ := ih rest' hrec hmask'
        constructor
        · intro m hm hen
          rcases List.mem_cons.mp hm with hm | hm
          · subst hm
            by_contra hneg
            have hlt : m.fd < 0 := by omega
            have := hmask m (List.mem_cons_self m rest) hen hlt
            simp [hen, this, hlt] at hg
          · exact ih1 m hm hen
        · intro m hm
          rcases List.mem_cons.mp hm with hm | hm
          · subst hm
            exact ⟨m, List.mem_cons_self m rest, rfl, rfl⟩
          · obtain ⟨n2, hn2, he⟩ := ih2 m hm
            exact ⟨n2, List.mem_cons_of_mem n hn2, he⟩

/-- The `--all` scan only flips `enabled` bits: kinds and fds are preserved
entrywise. -/
theorem scan_all_loop_shape (fs : FsEnv) (target : Nat) :
    ∀ (reg reg' : List NsFile), scan_all_loop fs target reg = .ok reg' →
      ∀ n' ∈ reg', ∃ n ∈ reg, n'.nstype = n.nstype ∧ n'.fd = n.fd := by
  intro reg
  induction reg with
  | nil =>
    intro reg' h
    cases h
    intro n hn
    cases hn
  | cons n rest ih =>
    intro reg' h
    simp only [scan_all_loop] at h
    by_cases hen : n.enabled = true
    · rw [if_pos hen] at h
      cases hrec : scan_all_loop fs target rest with
      | error er => rw [hrec] at h; cases h
      | ok rest' =>
        rw [hrec] at h
        simp only [Except.map, Except.ok.injEq] at h
        subst h
        intro m hm
        rcases List.mem_cons.mp hm with hm | hm
        · subst hm
          exact ⟨m, List.mem_cons_self m rest, rfl, rfl⟩
        · obtain ⟨n2, hn2, he⟩ := ih rest' hrec m hm
          exact ⟨n2, List.mem_cons_of_mem n hn2, he⟩
    · rw [if_neg hen] at h
      cases hu : is_usable_namespace fs target n with
      | error er => rw [hu] at h; cases h
      | ok u =>
        rw [hu] at h
        cases hrec : scan_all_loop fs target rest with
        | error er => rw [hrec] at h; cases h
        | ok rest' =>
          rw [hrec] at h
          simp only [Except.map, Except.ok.injEq] at h
          subst h
          intro m hm
          rcases List.mem_cons.mp hm with hm | hm
          · subst hm
            cases u <;>
              exact ⟨n, List.mem_cons_self n rest, rfl, rfl⟩
          · obtain ⟨n2, hn2, he⟩ := ih rest' hrec m hm
            exact ⟨n2, List.mem_cons_of_mem n hn2, he⟩

theorem replace_first_cases (mask : Nat) (f : NsFile → NsFile) :
    ∀ (reg : List NsFile), ∀ n' ∈ replace_first mask f reg,
      n' ∈ reg ∨ ∃ n ∈ reg, n' = f n := by
  intro reg
  induction reg with
  | nil => intro n' hn; cases hn
  | cons n rest ih =>
    intro n' hn
    simp only [replace_first] at hn
    by_cases hm : (n.nstype &&& mask != 0) = true
    · rw [if_pos hm] at hn
      rcases List.mem_cons.mp hn with h | h
      · exact Or.inr ⟨n, List.mem_cons_self n rest, h⟩
      · exact Or.inl (List.mem_cons_of_mem n h)
    · rw [if_neg hm] at hn
      rcases List.mem_cons.mp hn with h | h
      · exact Or.inl (h ▸ List.mem_cons_self n rest)
      · rcases ih n' h with h2 | ⟨n2, hn2, he⟩
        · exact Or.inl (List.mem_cons_of_mem n h2)
        · exact Or.inr ⟨n2, List.mem_cons_of_mem n hn2, he⟩

/-- A successful `open_parent_user_ns_fd` installs a nonnegative parent fd
into the first user entry and touches nothing else. -/
theorem open_parent_user_ns_fd_shape (e : ParentNsEnv) (pid_fd : Int)
    (target : Nat) (reg reg' : List NsFile) (closed : List Int)
    (h : open_parent_user_ns_fd e pid_fd target reg = .ok (reg', closed)) :
    ∃ p : Int, 0 ≤ p ∧
      reg' = replace_first CLONE_NEWUSER
        (fun u => { u with fd := p, enabled := true }) reg := by
  unfold open_parent_user_ns_fd at h
  cases hfind : reg.find? (fun n => n.nstype &&& CLONE_NEWUSER != 0) with
  | none => rw [hfind] at h; cases h
  | some user =>
    rw [hfind] at h
    simp only at h
    cases hpick : pick_user_ref_fd e pid_fd target reg user with
    | error er => rw [hpick] at h; cases h
    | ok p =>
      obtain ⟨pfd, ploc⟩ := p
      rw [hpick] at h
      simp only at h
      by_cases hpar : e.ioctl_get_userns pfd < 0
      · rw [if_pos hpar] at h
        cases h
      · rw [if_neg hpar] at h
        simp only [Except.ok.injEq, Prod.mk.injEq] at h
        exact ⟨e.ioctl_get_userns pfd, by omega, h.1.symm⟩

/-- A successful `open_target_sk_netns` installs a nonnegative namespace fd
into the first network entry and touches nothing else. -/
theorem open_target_sk_netns_shape (e : SkNsEnv) (pid_fd sock_fd : Int)
    (target : Nat) (reg reg' : List NsFile) (closed : List Int)
    (h : open_target_sk_netns e pid_fd sock_fd target reg = .ok (reg', closed)) :
    ∃ p : Int, 0 ≤ p ∧
      reg' = replace_first CLONE_NEWNET
        (fun n => { n with fd := p, enabled := true }) reg := by
  unfold open_target_sk_netns at h
  cases hfind : reg.find? (fun n => n.nstype &&& CLONE_NEWNET != 0) with
  | none => rw [hfind] at h; cases h
  | some nsfile =>
    rw [hfind] at h
    simp only at h
    by_cases h1 : pid_fd < 0 ∧ (if pid_fd < 0 then e.pidfd_open target else pid_fd) < 0
    · rw [if_pos h1] at h
      cases h
    · rw [if_neg h1] at h
      by_cases h2 :
          e.pidfd_getfd (if pid_fd < 0 then e.pidfd_open target else pid_fd) sock_fd < 0
      · rw [if_pos h2] at h
        cases h
      · rw [if_neg h2] at h
        by_cases h3 :
            e.fstat_ok (e.pidfd_getfd
              (if pid_fd < 0 then e.pidfd_open target else pid_fd) sock_fd) = true
        · rw [if_neg (by simp [h3])] at h
          by_cases h4 :
              e.ioctl_skns (e.pidfd_getfd
                (if pid_fd < 0 then e.pidfd_open target else pid_fd) sock_fd) < 0
          · rw [if_pos h4] at h
            cases h
          · rw [if_neg h4] at h
            simp only [Except.ok.injEq, Prod.mk.injEq] at h
            refine ⟨_, by omega, h.1.symm⟩
        · rw [if_pos (by simp [Bool.not_eq_true] at h3; simp [h3])] at h
          cases h

theorem stage_scan_all_shape (ep : Env) (s s' : St)
    (h : stage_scan_all ep s = .ok s') :
    ∀ n' ∈ s'.reg, ∃ n ∈ s.reg, n'.nstype = n.nstype ∧ n'.fd = n.fd := by
  unfold stage_scan_all at h
  by_cases hda : s.do_all = true
  · rw [if_pos hda] at h
    cases hscan : scan_all_loop ep.fs s.target s.reg with
    | error er => rw [hscan] at h; cases h
    | ok r =>
      rw [hscan] at h
      simp only [Except.map, Except.ok.injEq] at h
      subst h
      intro n' hn'
      exact scan_all_loop_shape ep.fs s.target s.reg r hscan n' hn'
  · rw [if_neg hda] at h
    cases h
    intro n' hn'
    exact ⟨n', hn', rfl, rfl⟩

/-- Peeling one `Except` bind off a successful chain. -/
theorem exists_of_bind_ok {α β : Type} (x : Except Err α) (f : α → Except Err β)
    (b : β) (h : x >>= f = .ok b) : ∃ a, x = .ok a ∧ f a = .ok b := by
  cases x with
  | error e =>
    simp only [Bind.bind, Except.bind] at h
    cases h
  | ok a =>
    refine ⟨a, rfl, ?_⟩
    simpa only [Bind.bind, Except.bind] using h

theorem stage_open_remaining_post (ep : Env) (s s' : St)
    (hvt : ∀ n ∈ s.reg, n.nstype ∈ valid_clone_flags)
    (h : stage_open_remaining ep s = .ok s') :
    (∀ n ∈ s'.reg, n.enabled = true → 0 ≤ n.fd) ∧
    (∀ n' ∈ s'.reg, ∃ n ∈ s.reg, n'.nstype = n.nstype) := by
  unfold stage_open_remaining at h
  by_cases hc : get_namespaces_without_fd s.reg ≠ 0 ∨ s.sock_fd ≥ 0 ∨
      s.do_user_parent = true
  · rw [if_pos hc] at h
    by_cases ht : s.target = 0
    · rw [if_pos ht] at h
      cases h
    · rw [if_neg ht] at h
      by_cases hns : get_namespaces_without_fd s.reg ≠ 0
      · rw [if_pos hns] at h
        cases hloop : open_namespaces_loop ep.openRO s.target
            (get_namespaces_without_fd s.reg) s.reg with
        | error er => rw [hloop] at h; cases h
        | ok r =>
          rw [hloop] at h
          simp only [Except.map, Except.ok.injEq] at h
          subst h
          have hmask : ∀ n ∈ s.reg, n.enabled = true → n.fd < 0 →
              maskMatch n.nstype (get_namespaces_without_fd s.reg) = true :=
            fun n hn hen hfd => maskMatch_own_without_fd s.reg n hn hen hfd (hvt n hn)
          obtain ⟨h1, h2⟩ :=
            open_namespaces_loop_post ep.openRO s.target
              (get_namespaces_without_fd s.reg) s.reg r hloop hmask
          refine ⟨h1, ?_⟩
          intro n' hn'
          obtain ⟨n, hn, hp, _⟩ := h2 n' hn'
          exact ⟨n, hn, hp⟩
      · rw [if_neg hns] at h
        cases h
        have hns0 : get_namespaces_without_fd s.reg = 0 := by
          by_contra hne
          exact hns hne
        exact ⟨fdinv_of_without_fd_zero s.reg hvt hns0,
          fun n' hn' => ⟨n', hn', rfl⟩⟩
  · rw [if_neg hc] at h
    cases h
    have hns0 : get_namespaces_without_fd s.reg = 0 := by
      by_contra hne
      exact hc (Or.inl hne)
    exact ⟨fdinv_of_without_fd_zero s.reg hvt hns0,
      fun n' hn' => ⟨n', hn', rfl⟩⟩

theorem stage_open_dirs_reg (ep : Env) (s s' : St)
    (h : stage_open_dirs ep s = .ok s') : s'.reg = s.reg := by
  unfold stage_open_dirs at h
  obtain ⟨v1, _, h⟩ := exists_of_bind_ok _ _ _ h
  obtain ⟨v2, _, h⟩ := exists_of_bind_ok _ _ _ h
  obtain ⟨v3, _, h⟩ := exists_of_bind_ok _ _ _ h
  obtain ⟨v4, _, h⟩ := exists_of_bind_ok _ _ _ h
  obtain ⟨v5, _, h⟩ := exists_of_bind_ok _ _ _ h
  cases h
  rfl

theorem stage_user_parent_post (ep : Env) (s s' : St)
    (hfdi : ∀ n ∈ s.reg, n.enabled = true → 0 ≤ n.fd)
    (h : stage_user_parent ep s = .ok s') :
    ∀ n ∈ s'.reg, n.enabled = true → 0 ≤ n.fd := by
  unfold stage_user_parent at h
  split at h
  · cases hop : open_parent_user_ns_fd ep.parentNs (-1) s.target s.reg with
    | error er => rw [hop] at h; cases h
    | ok pr =>
      rw [hop] at h
      simp only [Except.map, Except.ok.injEq] at h
      subst h
      obtain ⟨p, hp, hr⟩ :=
        open_parent_user_ns_fd_shape ep.parentNs (-1) s.target s.reg pr.1 pr.2 (by
          rw [← hop])
      intro n' hn' hen
      rw [hr] at hn'
      rcases replace_first_cases CLONE_NEWUSER _ s.reg n' hn' with horig | ⟨n, hn, he⟩
      · exact hfdi n' horig hen
      · subst he
        exact hp
  · cases h
    exact hfdi

theorem stage_sock_post (ep : Env) (s s' : St)
    (hfdi : ∀ n ∈ s.reg, n.enabled = true → 0 ≤ n.fd)
    (h : stage_sock ep s = .ok s') :
    ∀ n ∈ s'.reg, n.enabled = true → 0 ≤ n.fd := by
  unfold stage_sock at h
  split at h
  · cases hop : open_target_sk_netns ep.skns (-1) s.sock_fd s.target s.reg with
    | error er => rw [hop] at h; cases h
    | ok pr =>
      rw [hop] at h
      simp only [Except.map, Except.ok.injEq] at h
      subst h
      obtain ⟨p, hp, hr⟩ :=
        open_target_sk_netns_shape ep.skns (-1) s.sock_fd s.target s.reg pr.1 pr.2 (by
          rw [← hop])
      intro n' hn' hen
      rw [hr] at hn'
      rcases replace_first_cases CLONE_NEWNET _ s.reg n' hn' with horig | ⟨n, hn, he⟩
      · exact hfdi n' horig hen
      · subst he
        exact hp
  · cases h
    exact hfdi

/-- After successful resolution every enabled registry entry holds an fd. -/
theorem resolve_stages_post (ep : Env) (s s' : St)
    (hvt : ∀ n ∈ s.reg, n.nstype ∈ valid_clone_flags)
    (h : resolve_stages ep s = .ok s') :
    ∀ n ∈ s'.reg, n.enabled = true → 0 ≤ n.fd := by
  unfold resolve_stages at h
  obtain ⟨s1, h1, h⟩ := exists_of_bind_ok _ _ _ h
  obtain ⟨s2, h2, h⟩ := exists_of_bind_ok _ _ _ h
  obtain ⟨s3, h3, h⟩ := exists_of_bind_ok _ _ _ h
  obtain ⟨s4, h4, h⟩ := exists_of_bind_ok _ _ _ h
  have hvt1 : ∀ n ∈ s1.reg, n.nstype ∈ valid_clone_flags := by
    intro n hn
    obtain ⟨m, hm, he, _⟩ := stage_scan_all_shape ep s s1 h1 n hn
    rw [he]
    exact hvt m hm
  obtain ⟨hfd2, _⟩ := stage_open_remaining_post ep s1 s2 hvt1 h2
  have hreg3 := stage_open_dirs_reg ep s2 s3 h3
  have hfd3 : ∀ n ∈ s3.reg, n.enabled = true → 0 ≤ n.fd := by
    rw [hreg3]
    exact hfd2
  have hfd4 := stage_user_parent_post ep s3 s4 hfd3 h4
  exact stage_sock_post ep s4 s' hfd4 h

/-! ### Event phases and stage traces (claims C5 and C10) -/

/-- Every event the per-entry loop emits is an individual `setns`. -/
theorem enter_loop_trace_shape (e : SetnsEnv) (mask : Nat) (ignore : Bool) :
    ∀ (reg r : List NsFile) (tr : List Event),
      enter_loop e mask ignore reg = .ok (r, tr) →
      ∀ ev ∈ tr, ∃ f t nm, ev = Event.setnsOne f t nm := by
  intro reg
  induction reg with
  | nil =>
    intro r tr h ev hev
    cases h
    cases hev
  | cons n rest ih =>
    intro r tr h ev hev
    simp only [enter_loop] at h
    split at h
    · split at h
      · cases hrec : enter_loop e mask ignore rest with
        | error er => rw [hrec] at h; cases h
        | ok p =>
          rw [hrec] at h
          simp only [Except.map, Except.ok.injEq, Prod.mk.injEq] at h
          rw [← h.2] at hev
          exact ih p.1 p.2 (by rw [hrec]) ev hev
      · split at h
        · cases hrec : enter_loop e mask ignore rest with
          | error er => rw [hrec] at h; cases h
          | ok p =>
            rw [hrec] at h
            simp only [Except.map, Except.ok.injEq, Prod.mk.injEq] at h
            rw [← h.2] at hev
            rcases List.mem_cons.mp hev with hev | hev
            · exact ⟨n.fd, n.nstype, n.name, hev⟩
            · exact ih p.1 p.2 (by rw [hrec]) ev hev
        · split at h
          · cases hrec : enter_loop e mask ignore rest with
            | error er => rw [hrec] at h; cases h
            | ok p =>
              rw [hrec] at h
              simp only [Except.map, Except.ok.injEq, Prod.mk.injEq] at h
              rw [← h.2] at hev
              rcases List.mem_cons.mp hev with hev | hev
              · exact ⟨n.fd, n.nstype, n.name, hev⟩
              · exact ih p.1 p.2 (by rw [hrec]) ev hev
          · cases h
    · cases hrec : enter_loop e mask ignore rest with
      | error er => rw [hrec] at h; cases h
      | ok p =>
        rw [hrec] at h
        simp only [Except.map, Except.ok.injEq, Prod.mk.injEq] at h
        rw [← h.2] at hev
        exact ih p.1 p.2 (by rw [hrec]) ev hev

/-- Every event `enter_namespaces` emits is a `setns` (batched or
individual): a phase-1 class event. -/
theorem enter_namespaces_trace_phase (e : SetnsEnv) (pid_fd : Int)
    (reg : List NsFile) (mask : Nat) (ignore : Bool) (r : List NsFile)
    (tr : List Event) (h : enter_namespaces e pid_fd reg mask ignore = .ok (r, tr)) :
    ∀ ev ∈ tr, phaseOf ev = 1 := by
  have hloop : ∀ (reg2 r2 : List NsFile) (tr2 : List Event),
      enter_loop e mask ignore reg2 = .ok (r2, tr2) →
      ∀ ev ∈ tr2, phaseOf ev = 1 := by
    intro reg2 r2 tr2 hh ev hev
    obtain ⟨f, t, nm, he⟩ := enter_loop_trace_shape e mask ignore reg2 r2 tr2 hh ev hev
    rw [he]
    rfl
  unfold enter_namespaces at h
  by_cases hp : pid_fd ≠ 0
  · rw [if_pos hp] at h
    by_cases hb : batch_mask mask reg ≠ 0
    · rw [if_pos hb] at h
      by_cases hok : e.setns_ok pid_fd (batch_mask mask reg) = true
      · rw [if_pos hok] at h
        cases hrec : enter_loop e mask ignore
            (disable_namespaces (batch_mask mask reg) reg) with
        | error er => rw [hrec] at h; cases h
        | ok p =>
          rw [hrec] at h
          simp only [Except.map, Except.ok.injEq, Prod.mk.injEq] at h
          intro ev hev
          rw [← h.2] at hev
          rcases List.mem_cons.mp hev with hev | hev
          · rw [hev]; rfl
          · exact hloop _ p.1 p.2 (by rw [hrec]) ev hev
      · rw [if_neg hok] at h
        by_cases hig : ignore = true
        · rw [if_pos hig] at h
          cases hrec : enter_loop e mask ignore reg with
          | error er => rw [hrec] at h; cases h
          | ok p =>
            rw [hrec] at h
            simp only [Except.map, Except.ok.injEq, Prod.mk.injEq] at h
            intro ev hev
            rw [← h.2] at hev
            rcases List.mem_cons.mp hev with hev | hev
            · rw [hev]; rfl
            · exact hloop _ p.1 p.2 (by rw [hrec]) ev hev
        · rw [if_neg hig] at h
          cases h
    · rw [if_neg hb] at h
      exact hloop _ r tr h
  · rw [if_neg hp] at h
    exact hloop _ r tr h

/-- Phase-1's registry update preserves "enabled entries hold fds". -/
theorem fdinv_after_ignore (mask : Nat) (p : NsFile → Bool) (reg : List NsFile)
    (hfd : ∀ n ∈ reg, n.enabled = true → 0 ≤ n.fd) :
    ∀ n' ∈ reg.map (fun n => if attempted mask n && p n then (disable_nsfile n).1 else n),
      n'.enabled = true → 0 ≤ n'.fd := by
  intro n' hn' hen
  rw [List.mem_map] at hn'
  obtain ⟨n, hn, he⟩ := hn'
  by_cases hc : (attempted mask n && p n) = true
  · rw [if_pos hc] at he
    rw [← he] at hen
    cases hen
  · rw [if_neg hc] at he
    rw [← he] at hen ⊢
    exact hfd n hn hen

/-- A successful `two_phase` with every enabled entry holding an fd never
performs a batched `setns`: every event is an individual `setnsOne`. -/
theorem two_phase_trace_no_batch (e : SetnsEnv) (reg : List NsFile) (ns : Nat)
    (hfd : ∀ n ∈ reg, n.enabled = true → 0 ≤ n.fd)
    (reg2 : List NsFile) (tr : List Event) (ns2 : Nat)
    (h : two_phase e (-1) reg ns = .ok (reg2, tr, ns2)) :
    ∀ ev ∈ tr, ∃ f t nm, ev = Event.setnsOne f t nm := by
  unfold two_phase at h
  rw [enter_namespaces_no_batch e (-1) reg _ true (batch_mask_zero _ reg hfd)] at h
  rw [enter_loop_ignore_eq] at h
  simp only at h
  have hfd1 := fdinv_after_ignore (ns &&& NOT_NEWUSER)
    (fun n => e.setns_ok n.fd n.nstype) reg hfd
  split at h
  · rw [enter_namespaces_no_batch e (-1) _ _ false
        (batch_mask_zero _ _ hfd1)] at h
    cases henter : enter_loop e
        (get_namespaces (reg.map (fun n =>
          if attempted (ns &&& NOT_NEWUSER) n && e.setns_ok n.fd n.nstype
          then (disable_nsfile n).1 else n))) false
        (reg.map (fun n =>
          if attempted (ns &&& NOT_NEWUSER) n && e.setns_ok n.fd n.nstype
          then (disable_nsfile n).1 else n)) with
    | error er => rw [henter] at h; cases h
    | ok p =>
      rw [henter] at h
      simp only [Except.ok.injEq, Prod.mk.injEq] at h
      intro ev hev
      rw [← h.2.1] at hev
      rcases List.mem_append.mp hev with hev | hev
      · rw [List.mem_map] at hev
        obtain ⟨n, _, he⟩ := hev
        exact ⟨n.fd, n.nstype, n.name, he.symm⟩
      · exact enter_loop_trace_shape e _ false _ p.1 p.2 (by rw [henter]) ev hev
  · simp only [Except.ok.injEq, Prod.mk.injEq] at h
    intro ev hev
    rw [← h.2.1] at hev
    rw [List.mem_map] at hev
    obtain ⟨n, _, he⟩ := hev
    exact ⟨n.fd, n.nstype, n.name, he.symm⟩

/-- `stage_final_mask` does not touch the registry. -/
theorem stage_final_mask_reg (s s' : St) (h : stage_final_mask s = .ok s') :
    s'.reg = s.reg := by
  unfold stage_final_mask at h
  split at h
  · cases h
  · split at h
    · cases h
      rfl
    · cases h
      rfl

/-- `stage_cred_pre` does not touch the registry. -/
theorem stage_cred_pre_reg (e : Env) (s s' : St) (tr : List Event)
    (h : stage_cred_pre e s = (s', tr)) : s'.reg = s.reg := by
  unfold stage_cred_pre at h
  split at h
  · simp only [Prod.mk.injEq] at h
    rw [← h.1]
  · simp only [Prod.mk.injEq] at h
    rw [← h.1]

/-- Every event of a successful `two_phase` is a `setns` (phase 1). -/
theorem two_phase_trace_phase (e : SetnsEnv) (pid_fd : Int) (reg : List NsFile)
    (ns : Nat) (reg2 : List NsFile) (tr : List Event) (ns2 : Nat)
    (h : two_phase e pid_fd reg ns = .ok (reg2, tr, ns2)) :
    ∀ ev ∈ tr, phaseOf ev = 1 := by
  unfold two_phase at h
  cases h1 : enter_namespaces e pid_fd reg (ns &&& NOT_NEWUSER) true with
  | error er => rw [h1] at h; cases h
  | ok p =>
    obtain ⟨reg1, tr1⟩ := p
    rw [h1] at h
    simp only at h
    split at h
    · cases h2 : enter_namespaces e pid_fd reg1 (get_namespaces reg1) false with
      | error er => rw [h2] at h; cases h
      | ok q =>
        obtain ⟨regq, trq⟩ := q
        rw [h2] at h
        simp only [Except.ok.injEq, Prod.mk.injEq] at h
        intro ev hev
        rw [← h.2.1] at hev
        rcases List.mem_append.mp hev with hv | hv
        · exact enter_namespaces_trace_phase e pid_fd reg _ true reg1 tr1 h1 ev hv
        · exact enter_namespaces_trace_phase e pid_fd reg1 _ false regq trq h2 ev hv
    · simp only [Except.ok.injEq, Prod.mk.injEq] at h
      intro ev hev
      rw [← h.2.1] at hev
      exact enter_namespaces_trace_phase e pid_fd reg _ true reg1 tr1 h1 ev hev

/-- `stage_entry` is `two_phase` under a `map`: expose the inner call. -/
theorem stage_entry_two_phase (e : Env) (s s' : St) (tr : List Event)
    (h : stage_entry e s = .ok (s', tr)) :
    ∃ r ns2, two_phase e.setns (-1) s.reg s.namespaces = .ok (r, tr, ns2) := by
  unfold stage_entry at h
  cases htp : two_phase e.setns (-1) s.reg s.namespaces with
  | error er => rw [htp] at h; cases h
  | ok p =>
    obtain ⟨r1, tr1, ns2⟩ := p
    rw [htp] at h
    simp only [Except.map, Except.ok.injEq, Prod.mk.injEq] at h
    refine ⟨r1, ns2, ?_⟩
    rw [← h.2]

theorem stage_cred_pre_trace (e : Env) (s s' : St) (tr : List Event)
    (h : stage_cred_pre e s = (s', tr)) : ∀ ev ∈ tr, phaseOf ev = 0 := by
  unfold stage_cred_pre at h
  split at h
  · simp only [Prod.mk.injEq] at h
    intro ev hev
    rw [← h.2] at hev
    simp only [List.mem_singleton] at hev
    rw [hev]
    rfl
  · simp only [Prod.mk.injEq] at h
    intro ev hev
    rw [← h.2] at hev
    cases hev

theorem stage_entry_trace (e : Env) (s s' : St) (tr : List Event)
    (h : stage_entry e s = .ok (s', tr)) : ∀ ev ∈ tr, phaseOf ev = 1 := by
  obtain ⟨r, ns2, htp⟩ := stage_entry_two_phase e s s' tr h
  exact two_phase_trace_phase e.setns (-1) s.reg s.namespaces r tr ns2 htp

theorem dir_step_cwd_trace (e : Env) (s s' : St) (tr : List Event)
    (h : dir_step_cwd e s = .ok (s', tr)) : ∀ ev ∈ tr, phaseOf ev = 2 := by
  unfold dir_step_cwd at h
  split at h
  · split at h
    · cases h
    · simp only [Except.ok.injEq, Prod.mk.injEq] at h
      intro ev hev
      rw [← h.2] at hev
      simp only [List.mem_singleton] at hev
      rw [hev]
      rfl
  · simp only [Except.ok.injEq, Prod.mk.injEq] at h
    intro ev hev
    rw [← h.2] at hev
    cases hev

theorem dir_step_root_trace (e : Env) (s s' : St) (tr : List Event)
    (h : dir_step_root e s = .ok (s', tr)) : ∀ ev ∈ tr, phaseOf ev = 2 := by
  unfold dir_step_root at h
  split at h
  · split at h
    · cases h
    · split at h
      · cases h
      · split at h
        · cases h
        · simp only [Except.ok.injEq, Prod.mk.injEq] at h
          intro ev hev
          rw [← h.2] at hev
          simp only [List.mem_cons, List.mem_singleton, List.not_mem_nil,
            or_false] at hev
          rcases hev with hv | hv | hv <;> (rw [hv]; rfl)
  · simp only [Except.ok.injEq, Prod.mk.injEq] at h
    intro ev hev
    rw [← h.2] at hev
    cases hev

theorem dir_step_wdns_trace (e : Env) (s s' : St) (tr : List Event)
    (h : dir_step_wdns e s = .ok (s', tr)) : ∀ ev ∈ tr, phaseOf ev = 2 := by
  unfold dir_step_wdns at h
  cases hw : s.wdns with
  | some p =>
    rw [hw] at h
    simp only at h
    split at h
    · cases h
    · simp only [Except.ok.injEq, Prod.mk.injEq] at h
      intro ev hev
      rw [← h.2] at hev
      simp only [List.mem_singleton] at hev
      rw [hev]
      rfl
  | none =>
    rw [hw] at h
    simp only [Except.ok.injEq, Prod.mk.injEq] at h
    intro ev hev
    rw [← h.2] at hev
    cases hev

theorem dir_step_wd_trace (e : Env) (s s' : St) (tr : List Event)
    (h : dir_step_wd e s = .ok (s', tr)) : ∀ ev ∈ tr, phaseOf ev = 2 := by
  unfold dir_step_wd at h
  split at h
  · split at h
    · cases h
    · simp only [Except.ok.injEq, Prod.mk.injEq] at h
      intro ev hev
      rw [← h.2] at hev
      simp only [List.mem_singleton] at hev
      rw [hev]
      rfl
  · simp only [Except.ok.injEq, Prod.mk.injEq] at h
    intro ev hev
    rw [← h.2] at hev
    cases hev

theorem stage_dir_trace (e : Env) (s s' : St) (tr : List Event)
    (h : stage_dir e s = .ok (s', tr)) : ∀ ev ∈ tr, phaseOf ev = 2 := by
  unfold stage_dir at h
  obtain ⟨p1, hp1, h⟩ := exists_of_bind_ok _ _ _ h
  obtain ⟨s1, t0⟩ := p1
  simp only at h
  obtain ⟨p2, hp2, h⟩ := exists_of_bind_ok _ _ _ h
  obtain ⟨s2, t1⟩ := p2
  simp only at h
  obtain ⟨p3, hp3, h⟩ := exists_of_bind_ok _ _ _ h
  obtain ⟨s3, t2⟩ := p3
  simp only at h
  obtain ⟨p4, hp4, h⟩ := exists_of_bind_ok _ _ _ h
  obtain ⟨s4, t3⟩ := p4
  simp only [Except.ok.injEq, Prod.mk.injEq] at h
  intro ev hev
  rw [← h.2] at hev
  simp only [List.append_assoc, List.mem_append] at hev
  rcases hev with hv | hv | hv | hv
  · exact dir_step_cwd_trace e s s1 t0 hp1 ev hv
  · exact dir_step_root_trace e s1 s2 t1 hp2 ev hv
  · exact dir_step_wdns_trace e s2 s3 t2 hp3 ev hv
  · exact dir_step_wd_trace e s3 s4 t3 hp4 ev hv

theorem stage_env_trace (e : Env) (s s' : St) (tr : List Event)
    (h : stage_env e s = .ok (s', tr)) : ∀ ev ∈ tr, phaseOf ev = 3 := by
  unfold stage_env at h
  split at h
  · cases henv : e.envRead with
    | none => rw [henv] at h; cases h
    | some l =>
      rw [henv] at h
      simp only at h
      split at h
      · cases h
      · simp only [Except.ok.injEq, Prod.mk.injEq] at h
        intro ev hev
        rw [← h.2] at hev
        simp only [List.mem_singleton] at hev
        rw [hev]
        rfl
  · simp only [Except.ok.injEq, Prod.mk.injEq] at h
    intro ev hev
    rw [← h.2] at hev
    cases hev

theorem stage_cgroup_trace (e : Env) (s s' : St) (tr : List Event)
    (h : stage_cgroup e s = .ok (s', tr)) : ∀ ev ∈ tr, phaseOf ev = 4 := by
  unfold stage_cgroup at h
  split at h
  · cases hj : join_into_cgroup e.fs.pid_self e.writeResults with
    | error er => rw [hj] at h; cases h
    | ok buf =>
      rw [hj] at h
      simp only [Except.ok.injEq, Prod.mk.injEq] at h
      intro ev hev
      rw [← h.2] at hev
      simp only [List.mem_singleton] at hev
      rw [hev]
      rfl
  · simp only [Except.ok.injEq, Prod.mk.injEq] at h
    intro ev hev
    rw [← h.2] at hev
    cases hev

theorem stage_fork_trace (s s' : St) (tr : List Event)
    (h : stage_fork s = (s', tr)) : ∀ ev ∈ tr, phaseOf ev = 5 := by
  unfold stage_fork at h
  split at h
  · simp only [Prod.mk.injEq] at h
    intro ev hev
    rw [← h.2] at hev
    simp only [List.mem_singleton] at hev
    rw [hev]
    rfl
  · simp only [Prod.mk.injEq] at h
    intro ev hev
    rw [← h.2] at hev
    cases hev

theorem stage_cred_trace (e : Env) (s s' : St) (tr : List Event)
    (h : stage_cred e s = .ok (s', tr)) : ∀ ev ∈ tr, phaseOf ev = 6 := by
  unfold stage_cred at h
  split at h
  · split at h
    · cases h
    · split at h
      · cases h
      · split at h
        · cases h
        · simp only [Except.ok.injEq, Prod.mk.injEq] at h
          intro ev hev
          rw [← h.2] at hev
          simp only [List.mem_append] at hev
          rcases hev with (hv | hv) | hv
          · split at hv
            · simp only [List.mem_singleton] at hv
              rw [hv]
              rfl
            · cases hv
          · split at hv
            · simp only [List.mem_singleton] at hv
              rw [hv]
              rfl
            · cases hv
          · split at hv
            · simp only [List.mem_singleton] at hv
              rw [hv]
              rfl
            · cases hv
  · simp only [Except.ok.injEq, Prod.mk.injEq] at h
    intro ev hev
    rw [← h.2] at hev
    cases hev

theorem stage_caps_trace (e : Env) (s s' : St) (tr : List Event)
    (h : stage_caps e s = .ok (s', tr)) : ∀ ev ∈ tr, phaseOf ev = 7 := by
  unfold stage_caps at h
  split at h
  · cases hc : cap_permitted_to_ambient e.cap with
    | error er => rw [hc] at h; cases h
    | ok out =>
      rw [hc] at h
      simp only [Except.ok.injEq, Prod.mk.injEq] at h
      intro ev hev
      rw [← h.2] at hev
      simp only [List.mem_singleton] at hev
      rw [hev]
      rfl
  · simp only [Except.ok.injEq, Prod.mk.injEq] at h
    intro ev hev
    rw [← h.2] at hev
    cases hev

theorem stage_exec_trace (e : Env) (s : St) (tr : List Event)
    (h : stage_exec e s = .ok tr) : ∀ ev ∈ tr, phaseOf ev = 8 := by
  unfold stage_exec at h
  split at h
  · split at h
    · cases h
      intro ev hev
      simp only [List.mem_singleton] at hev
      rw [hev]
      rfl
    · cases h
  · cases h

/-- A successful `do_nsenter_core` run decomposes into its nine stages,
its trace being the concatenation of the stage traces in program order. -/
theorem core_decomp (e : Env) (s : St) (tr : List Event)
    (h : do_nsenter_core e s = .ok tr) :
    ∃ (s1 s2 s3 : St) (tr0 : List Event) (s4 : St) (tr1 : List Event)
      (s5 : St) (tr2 : List Event) (s6 : St) (tr3 : List Event)
      (s7 : St) (tr4 : List Event) (s9 : St) (tr5 : List Event)
      (s10 : St) (tr6 : List Event) (s11 : St) (tr7 : List Event)
      (tr8 : List Event),
      resolve_stages e s = .ok s1 ∧
      stage_final_mask s1 = .ok s2 ∧
      stage_cred_pre e s2 = (s3, tr0) ∧
      stage_entry e s3 = .ok (s4, tr1) ∧
      stage_dir e s4 = .ok (s5, tr2) ∧
      stage_env e s5 = .ok (s6, tr3) ∧
      stage_cgroup e s6 = .ok (s7, tr4) ∧
      stage_fork (stage_uid_gid e s7) = (s9, tr5) ∧
      stage_cred e s9 = .ok (s10, tr6) ∧
      stage_caps e s10 = .ok (s11, tr7) ∧
      stage_exec e s11 = .ok tr8 ∧
      tr = tr0 ++ tr1 ++ tr2 ++ tr3 ++ tr4 ++ tr5 ++ tr6 ++ tr7 ++ tr8 := by
  unfold do_nsenter_core at h
  obtain ⟨s1, h1, h⟩ := exists_of_bind_ok _ _ _ h
  obtain ⟨s2, h2, h⟩ := exists_of_bind_ok _ _ _ h
  cases hcp : stage_cred_pre e s2 with
  | mk s3 tr0 =>
  rw [hcp] at h
  simp only at h
  obtain ⟨p1, h4, h⟩ := exists_of_bind_ok _ _ _ h
  obtain ⟨s4, tr1⟩ := p1
  simp only at h
  obtain ⟨p2, h5, h⟩ := exists_of_bind_ok _ _ _ h
  obtain ⟨s5, tr2⟩ := p2
  simp only at h
  obtain ⟨p3, h6, h⟩ := exists_of_bind_ok _ _ _ h
  obtain ⟨s6, tr3⟩ := p3
  simp only at h
  obtain ⟨p4, h7, h⟩ := exists_of_bind_ok _ _ _ h
  obtain ⟨s7, tr4⟩ := p4
  simp only at h
  cases hfk : stage_fork (stage_uid_gid e s7) with
  | mk s9 tr5 =>
  rw [hfk] at h
  simp only at h
  obtain ⟨p5, h10, h⟩ := exists_of_bind_ok _ _ _ h
  obtain ⟨s10, tr6⟩ := p5
  simp only at h
  obtain ⟨p6, h11, h⟩ := exists_of_bind_ok _ _ _ h
  obtain ⟨s11, tr7⟩ := p6
  simp only at h
  obtain ⟨tr8, h12, h⟩ := exists_of_bind_ok _ _ _ h
  simp only [pure, Except.pure, Except.ok.injEq] at h
  exact ⟨s1, s2, s3, tr0, s4, tr1, s5, tr2, s6, tr3, s7, tr4, s9, tr5,
    s10, tr6, s11, tr7, tr8, h1, h2, hcp, h4, h5, h6, h7, hfk, h10, h11, h12,
    h.symm⟩

/-- A list of events all in one phase is phase-sorted. -/
theorem pairwise_phase_const (k : Nat) (tr : List Event)
    (h : ∀ ev ∈ tr, phaseOf ev = k) :
    tr.Pairwise (fun a b => phaseOf a ≤ phaseOf b) := by
  induction tr with
  | nil => exact List.Pairwise.nil
  | cons e rest ih =>
    constructor
    · intro b hb
      rw [h e (List.mem_cons_self e rest), h b (List.mem_cons_of_mem e hb)]
    · exact ih (fun ev hev => h ev (List.mem_cons_of_mem e hev))

/-- Prepending a phase-`k` segment to a phase-sorted suffix whose phases are
all at least `k` keeps the list phase-sorted, with all phases at least `k`. -/
theorem pairwise_phase_append (tr1 tr2 : List Event) (k : Nat)
    (h1 : ∀ ev ∈ tr1, phaseOf ev = k)
    (h2 : ∀ ev ∈ tr2, k ≤ phaseOf ev)
    (hp : tr2.Pairwise (fun a b => phaseOf a ≤ phaseOf b)) :
    (tr1 ++ tr2).Pairwise (fun a b => phaseOf a ≤ phaseOf b) ∧
    ∀ ev ∈ tr1 ++ tr2, k ≤ phaseOf ev := by
  constructor
  · rw [List.pairwise_append]
    refine ⟨pairwise_phase_const k tr1 h1, hp, ?_⟩
    intro a ha b hb
    rw [h1 a ha]
    exact h2 b hb
  · intro ev hev
    rcases List.mem_append.mp hev with hv | hv
    · rw [h1 ev hv]
    · exact h2 ev hv

/-- C5 counterexample and amended order both build on this: the trace of a
successful run is sorted by pipeline phase — `setgroups` pre-pass (0),
namespace entry (1), directory change (2), environment import (3), cgroup
join (4), fork (5), credential change (6), capability propagation (7),
exec (8).  In particular every credential or capability event comes AFTER
every directory/environment/cgroup/fork event, the reverse of the claimed
order. -/
theorem C5_pipeline_phase_order (ep : Env) (s : St) (tr : List Event)
    (h : do_nsenter_core ep s = .ok tr) :
    tr.Pairwise (fun a b => phaseOf a ≤ phaseOf b) := by
  obtain ⟨s1, s2, s3, tr0, s4, tr1, s5, tr2, s6, tr3, s7, tr4, s9, tr5,
    s10, tr6, s11, tr7, tr8, h1, h2, h3, h4, h5, h6, h7, h9, h10, h11, h12,
    htr⟩ := core_decomp ep s tr h
  have c0 := stage_cred_pre_trace ep s2 s3 tr0 h3
  have c1 := stage_entry_trace ep s3 s4 tr1 h4
  have c2 := stage_dir_trace ep s4 s5 tr2 h5
  have c3 := stage_env_trace ep s5 s6 tr3 h6
  have c4 := stage_cgroup_trace ep s6 s7 tr4 h7
  have c5 := stage_fork_trace (stage_uid_gid ep s7) s9 tr5 h9
  have c6 := stage_cred_trace ep s9 s10 tr6 h10
  have c7 := stage_caps_trace ep s10 s11 tr7 h11
  have c8 := stage_exec_trace ep s11 tr8 h12
  subst htr
  simp only [List.append_assoc]
  have H8 : (tr8.Pairwise fun a b => phaseOf a ≤ phaseOf b) ∧
      ∀ ev ∈ tr8, 8 ≤ phaseOf ev :=
    ⟨pairwise_phase_const 8 tr8 c8, fun ev hev => (c8 ev hev).ge⟩
  have H7 := pairwise_phase_append tr7 tr8 7 c7
    (fun ev hev => Nat.le_trans (by omega) (H8.2 ev hev)) H8.1
  have H6 := pairwise_phase_append tr6 (tr7 ++ tr8) 6 c6
    (fun ev hev => Nat.le_trans (by omega) (H7.2 ev hev)) H7.1
  have H5 := pairwise_phase_append tr5 (tr6 ++ (tr7 ++ tr8)) 5 c5
    (fun ev hev => Nat.le_trans (by omega) (H6.2 ev hev)) H6.1
  have H4 := pairwise_phase_append tr4 (tr5 ++ (tr6 ++ (tr7 ++ tr8))) 4 c4
    (fun ev hev => Nat.le_trans (by omega) (H5.2 ev hev)) H5.1
  have H3 := pairwise_phase_append tr3 (tr4 ++ (tr5 ++ (tr6 ++ (tr7 ++ tr8)))) 3 c3
    (fun ev hev => Nat.le_trans (by omega) (H4.2 ev hev)) H4.1
  have H2 := pairwise_phase_append tr2
    (tr3 ++ (tr4 ++ (tr5 ++ (tr6 ++ (tr7 ++ tr8))))) 2 c2
    (fun ev hev => Nat.le_trans (by omega) (H3.2 ev hev)) H3.1
  have H1 := pairwise_phase_append tr1
    (tr2 ++ (tr3 ++ (tr4 ++ (tr5 ++ (tr6 ++ (tr7 ++ tr8)))))) 1 c1
    (fun ev hev => Nat.le_trans (by omega) (H2.2 ev hev)) H2.1
  have H0 := pairwise_phase_append tr0
    (tr1 ++ (tr2 ++ (tr3 ++ (tr4 ++ (tr5 ++ (tr6 ++ (tr7 ++ tr8))))))) 0 c0
    (fun ev hev => Nat.le_trans (by omega) (H1.2 ev hev)) H1.1
  exact H0.1

/-- C5 counterexample: a successful full-featured run in which the
credential changes (`setgroups`/`setgid`/`setuid`) and the capability
propagation happen AFTER the directory change, the cgroup join and the
fork — not before them as claimed.  (Only the pre-entry `setgroups`
attempt precedes namespace entry.) -/
theorem C5_cred_after_dir_counterexample :
    do_nsenter_core envC5 stC5 = .ok trC5 ∧
    Event.setgidCall 0 ∈ trC5 ∧ Event.capProp ∈ trC5 ∧
    trC5.indexOf Event.cgroupJoin < trC5.indexOf (Event.setgidCall 0) ∧
    trC5.indexOf Event.forked < trC5.indexOf (Event.setgidCall 0) ∧
    trC5.indexOf (Event.fchdirRoot 9) < trC5.indexOf (Event.setgidCall 0) ∧
    trC5.indexOf Event.cgroupJoin < trC5.indexOf Event.capProp := by
  refine ⟨by decide, by decide, by decide, by decide, by decide, by decide,
    by decide⟩

/-- C5 amended, witness: the `envC5`/`stC5` run succeeds and its trace is
phase-sorted. -/
theorem C5_pipeline_phase_order_witness :
    trC5.Pairwise (fun a b => phaseOf a ≤ phaseOf b) :=
  C5_pipeline_phase_order envC5 stC5 trC5 (by decide)

/-- C10: `pid_fd` is never assigned (the pipeline passes the literal `-1`
everywhere), after resolution every enabled registry entry holds an open fd,
and consequently both entry phases compute an empty batch mask and skip the
fd-batched `setns` branch: every phase-1 event of a successful run is an
individual per-entry `setns`, and no trace ever contains a batched one. -/
theorem C10_no_batched_setns (ep : Env) (s : St)
    (hvt : ∀ n ∈ s.reg, n.nstype ∈ valid_clone_flags)
    (tr : List Event) (h : do_nsenter_core ep s = .ok tr) :
    (∀ s', resolve_stages ep s = .ok s' →
      ∀ n ∈ s'.reg, n.enabled = true → 0 ≤ n.fd) ∧
    (∀ ev ∈ tr, phaseOf ev = 1 → ∃ f t nm, ev = Event.setnsOne f t nm) ∧
    (∀ ev ∈ tr, ∀ pf m, ev ≠ Event.setnsBatch pf m) := by
  obtain ⟨s1, s2, s3, tr0, s4, tr1, s5, tr2, s6, tr3, s7, tr4, s9, tr5,
    s10, tr6, s11, tr7, tr8, h1, h2, h3, h4, h5, h6, h7, h9, h10, h11, h12,
    htr⟩ := core_decomp ep s tr h
  have hfd1 := resolve_stages_post ep s s1 hvt h1
  have hr2 := stage_final_mask_reg s1 s2 h2
  have hr3 := stage_cred_pre_reg ep s2 s3 tr0 h3
  have hfd3 : ∀ n ∈ s3.reg, n.enabled = true → 0 ≤ n.fd := by
    rw [hr3, hr2]
    exact hfd1
  obtain ⟨r, ns2, htp⟩ := stage_entry_two_phase ep s3 s4 tr1 h4
  have hone := two_phase_trace_no_batch ep.setns s3.reg s3.namespaces hfd3
    r tr1 ns2 htp
  have c0 := stage_cred_pre_trace ep s2 s3 tr0 h3
  have c2 := stage_dir_trace ep s4 s5 tr2 h5
  have c3 := stage_env_trace ep s5 s6 tr3 h6
  have c4 := stage_cgroup_trace ep s6 s7 tr4 h7
  have c5 := stage_fork_trace (stage_uid_gid ep s7) s9 tr5 h9
  have c6 := stage_cred_trace ep s9 s10 tr6 h10
  have c7 := stage_caps_trace ep s10 s11 tr7 h11
  have c8 := stage_exec_trace ep s11 tr8 h12
  have key : ∀ ev ∈ tr, phaseOf ev = 1 →
      ∃ f t nm, ev = Event.setnsOne f t nm := by
    intro ev hev hph
    rw [htr] at hev
    simp only [List.append_assoc, List.mem_append] at hev
    rcases hev with hv | hv | hv | hv | hv | hv | hv | hv | hv
    · rw [c0 ev hv] at hph
      exact absurd hph (by decide)
    · exact hone ev hv
    · rw [c2 ev hv] at hph
      exact absurd hph (by decide)
    · rw [c3 ev hv] at hph
      exact absurd hph (by decide)
    · rw [c4 ev hv] at hph
      exact absurd hph (by decide)
    · rw [c5 ev hv] at hph
      exact absurd hph (by decide)
    · rw [c6 ev hv] at hph
      exact absurd hph (by decide)
    · rw [c7 ev hv] at hph
      exact absurd hph (by decide)
    · rw [c8 ev hv] at hph
      exact absurd hph (by decide)
  refine ⟨?_, key, ?_⟩
  · intro s' h1'
    rw [h1] at h1'
    simp only [Except.ok.injEq] at h1'
    rw [← h1']
    exact hfd1
  · intro ev hev pf m he
    obtain ⟨f, t, nm, habs⟩ := key ev hev (by rw [he]; rfl)
    rw [he] at habs
    cases habs

/-- C10 witness: the concrete `envC5`/`stC5` run — every enabled entry owns
an fd after resolution, and its trace contains individual `setns` calls
only. -/
theorem C10_no_batched_setns_witness :
    (∀ s', resolve_stages envC5 stC5 = .ok s' →
      ∀ n ∈ s'.reg, n.enabled = true → 0 ≤ n.fd) ∧
    (∀ ev ∈ trC5, phaseOf ev = 1 → ∃ f t nm, ev = Event.setnsOne f t nm) ∧
    (∀ ev ∈ trC5, ∀ pf m, ev ≠ Event.setnsBatch pf m) :=
  C10_no_batched_setns envC5 stC5 (by decide) trC5 (by decide)

/-- The successful root change, over an arbitrary state. -/
theorem dir_step_root_ok (e : Env) (t : St) (h0 : 0 ≤ t.root_fd)
    (hf : e.fchdir_ok t.root_fd = true) (hc : e.chroot_ok = true)
    (hd : e.chdir_slash_ok = true) :
    dir_step_root e t = .ok ({ t with root_fd := -1 },
      [Event.fchdirRoot t.root_fd, Event.chrootDot, Event.chdirSlash]) := by
  unfold dir_step_root
  rw [if_pos (show t.root_fd ≥ 0 from h0),
    if_neg (by rw [hf]; exact Bool.false_ne_true),
    if_neg (by rw [hc]; exact Bool.false_ne_true),
    if_neg (by rw [hd]; exact Bool.false_ne_true)]

/-- No in-namespace working directory: the step is a no-op. -/
theorem dir_step_wdns_none (e : Env) (t : St) (hn : t.wdns = none) :
    dir_step_wdns e t = .ok (t, []) := by
  unfold dir_step_wdns
  rw [hn]

/-- The successful working-directory change, over an arbitrary state. -/
theorem dir_step_wd_ok (e : Env) (t : St) (h0 : 0 ≤ t.wd_fd)
    (hf : e.fchdir_ok t.wd_fd = true) :
    dir_step_wd e t = .ok ({ t with wd_fd := -1 },
      [Event.fchdirWd t.wd_fd]) := by
  unfold dir_step_wd
  rw [if_pos (show t.wd_fd ≥ 0 from h0),
    if_neg (by rw [hf]; exact Bool.false_ne_true)]

/-- C7: with a root fd set, the root change is exactly `fchdir(root_fd)`,
then `chroot(".")`, then `chdir("/")`, each failure fatal; and when no
working directory was requested (no wd fd, no in-namespace path), an fd to
the pre-change current directory is opened before the root switch and the
working directory is restored through it afterwards. -/
theorem C7_root_change_and_cwd_restore (e : Env) (s : St)
    (hroot : 0 ≤ s.root_fd) :
    (e.fchdir_ok s.root_fd = false →
      dir_step_root e s = .error .fchdirRootFailed) ∧
    (e.fchdir_ok s.root_fd = true → e.chroot_ok = false →
      dir_step_root e s = .error .chrootFailed) ∧
    (e.fchdir_ok s.root_fd = true → e.chroot_ok = true →
      e.chdir_slash_ok = false →
      dir_step_root e s = .error .chdirSlashFailed) ∧
    (e.fchdir_ok s.root_fd = true → e.chroot_ok = true →
      e.chdir_slash_ok = true →
      dir_step_root e s = .ok ({ s with root_fd := -1 },
        [Event.fchdirRoot s.root_fd, Event.chrootDot, Event.chdirSlash])) ∧
    (s.wd_fd < 0 → s.wdns = none → 0 ≤ e.openDotFd →
      e.fchdir_ok s.root_fd = true → e.chroot_ok = true →
      e.chdir_slash_ok = true → e.fchdir_ok e.openDotFd = true →
      stage_dir e s = .ok ({ s with root_fd := -1, wd_fd := -1 },
        [Event.openDot e.openDotFd, Event.fchdirRoot s.root_fd,
         Event.chrootDot, Event.chdirSlash, Event.fchdirWd e.openDotFd])) := by
  have hge : s.root_fd ≥ 0 := hroot
  refine ⟨?_, ?_, ?_, ?_, ?_⟩
  · intro hf
    unfold dir_step_root
    rw [if_pos hge, if_pos (by rw [hf]; rfl)]
  · intro hf hc
    unfold dir_step_root
    rw [if_pos hge, if_neg (by rw [hf]; exact Bool.false_ne_true),
      if_pos (by rw [hc]; rfl)]
  · intro hf hc hd
    unfold dir_step_root
    rw [if_pos hge, if_neg (by rw [hf]; exact Bool.false_ne_true),
      if_neg (by rw [hc]; exact Bool.false_ne_true), if_pos (by rw [hd]; rfl)]
  · intro hf hc hd
    exact dir_step_root_ok e s hroot hf hc hd
  · intro hw hn hod hf hc hd hf2
    have h1 : dir_step_cwd e s =
        .ok ({ s with wd_fd := e.openDotFd }, [Event.openDot e.openDotFd]) := by
      unfold dir_step_cwd
      rw [if_pos ⟨hge, hw, hn⟩, if_neg (not_lt.mpr hod)]
    have h2 := dir_step_root_ok e { s with wd_fd := e.openDotFd } hroot hf hc hd
    have h3 := dir_step_wdns_none e
      { s with wd_fd := e.openDotFd, root_fd := -1 } hn
    have h4 := dir_step_wd_ok e
      { s with wd_fd := e.openDotFd, root_fd := -1 } hod hf2
    unfold stage_dir
    rw [h1]
    simp only [Bind.bind, Except.bind]
    rw [h2]
    simp only
    rw [h3]
    simp only
    rw [h4]
    rfl

/-- C7 witness: the `envC5`/`stC5` registry with root fd 9 already opened —
the root change succeeds and the full directory stage captures fd 11 to `.`
before the switch and restores through it afterwards. -/
theorem C7_root_change_and_cwd_restore_witness :
    dir_step_root envC5 { stC5 with root_fd := 9 } =
      .ok ({ stC5 with root_fd := -1 },
        [Event.fchdirRoot 9, Event.chrootDot, Event.chdirSlash]) ∧
    stage_dir envC5 { stC5 with root_fd := 9 } =
      .ok ({ stC5 with root_fd := -1, wd_fd := -1 },
        [Event.openDot 11, Event.fchdirRoot 9, Event.chrootDot,
         Event.chdirSlash, Event.fchdirWd 11]) :=
  ⟨(C7_root_change_and_cwd_restore envC5 { stC5 with root_fd := 9 }
      (by decide)).2.2.2.1 rfl rfl rfl,
   (C7_root_change_and_cwd_restore envC5 { stC5 with root_fd := 9 }
      (by decide)).2.2.2.2 (by decide) rfl (by decide) rfl rfl rfl rfl⟩

end NsEnter
